import Mathlib

/-!
# AMCLCD-RK: character LCD driver over I2C

A shallow embedding of `src/src/AMCLCD-RK.h` and `src/src/AMCLCD-RK.cpp`.

Conventions of the embedding:

* a `uint8_t` value is a natural number below 256; every conversion from a
  wider type to `uint8_t` that the C++ performs (explicit cast, argument
  passing of an `int` expression, compound assignment) is written out as a
  reduction modulo 256 (`toUInt8` on `Int`, `% 256` on `Nat`);
* an `int` value is an `Int`.  The only `int` arithmetic of the driver is
  `col++`, `row++` and `getRowAddress(row) + col`; signed overflow is undefined
  behaviour in C++, so the model describes the executions without it.  `col++`
  runs only when `col < getCols()` and cannot overflow; `row++` overflows
  exactly when `row` is `INT_MAX`, and a statement whose truth depends on that
  step carries the hypothesis `row < INT_MAX`;
* the I2C transport `TwoWire` is the environment: it is modelled as a recorder
  of the transmissions attempted, with the status that `endTransmission`
  reports chosen by an arbitrary oracle;
* `delay`, `delayMicroseconds` and `Log.info` have no effect on the driver
  state or on the bus and are left out.
-/

namespace AMCLCD_RK

/-! ## The I2C transport (environment) -/

/-- One completed I2C write transaction: the 7-bit target address and the
bytes queued between `beginTransmission` and `endTransmission`. -/
structure Transmission where
  addr : Nat
  bytes : List Nat
  deriving DecidableEq, Repr

/-- The `TwoWire` object used by the driver.  `sent` records, oldest first, the
transactions attempted so far; `status n` is the value `endTransmission`
reports for the transaction attempted after `n` earlier ones (0 is success). -/
structure TwoWire where
  begun : Bool
  txAddr : Nat
  txBuf : List Nat
  sent : List Transmission
  status : Nat → Int

/-- A bus on which nothing was sent yet and every transaction is acknowledged. -/
def TwoWire.idle : TwoWire :=
  { begun := false, txAddr := 0, txBuf := [], sent := [], status := fun _ => 0 }

/-- The call `wire.begin()`. -/
def TwoWire.begin (w : TwoWire) : TwoWire :=
  { w with begun := true }

/-- The call `wire.beginTransmission(addr)`. -/
def TwoWire.beginTransmission (w : TwoWire) (addr : Nat) : TwoWire :=
  { w with txAddr := addr, txBuf := [] }

/-- The call `wire.write(b)`: queue one byte. -/
def TwoWire.write (w : TwoWire) (b : Nat) : TwoWire :=
  { w with txBuf := w.txBuf ++ [b] }

/-- The call `wire.endTransmission(true)`: the queued bytes go out as one
transaction and the status of that transaction is returned. -/
def TwoWire.endTransmission (w : TwoWire) : Int × TwoWire :=
  (w.status w.sent.length,
   { w with sent := w.sent ++ [{ addr := w.txAddr, bytes := w.txBuf }], txBuf := [] })

/-! ## Display models (`AMCLCD_Model` and its four subclasses) -/

/-- The abstract class `AMCLCD_Model`: four `const` virtual functions.  The two
last fields record that `getRowAddress` and `getConfig` return `uint8_t`. -/
structure AMCLCD_Model where
  getCols : Int
  getRows : Int
  getRowAddress : Int → Nat
  getConfig : Nat
  getRowAddress_lt : ∀ row, getRowAddress row < 256
  getConfig_lt : getConfig < 256

/-- The class `AMCLCD_Model_AMC1602` (16x2). -/
def AMCLCD_Model_AMC1602 : AMCLCD_Model where
  getCols := 16
  getRows := 2
  getRowAddress := fun row => if row = 0 then 0x00 else 0x40
  getConfig := 0x38
  getRowAddress_lt := by intro row; dsimp only; split_ifs <;> decide
  getConfig_lt := by decide

/-- The class `AMCLCD_Model_AMC2002` (20x2). -/
def AMCLCD_Model_AMC2002 : AMCLCD_Model where
  getCols := 20
  getRows := 2
  getRowAddress := fun row => if row = 0 then 0x00 else 0x40
  getConfig := 0x38
  getRowAddress_lt := by intro row; dsimp only; split_ifs <;> decide
  getConfig_lt := by decide

/-- The class `AMCLCD_Model_AMC2004` (20x4); `getRowAddress` is the `switch`
of `AMCLCD_Model_AMC2004::getRowAddress`. -/
def AMCLCD_Model_AMC2004 : AMCLCD_Model where
  getCols := 20
  getRows := 4
  getRowAddress := fun row =>
    if row = 0 then 0x00
    else if row = 1 then 0x40
    else if row = 2 then 0x14
    else 0x54
  getConfig := 0x38
  getRowAddress_lt := by intro row; dsimp only; split_ifs <;> decide
  getConfig_lt := by decide

/-- The class `AMCLCD_Model_AMC0802` (8x2). -/
def AMCLCD_Model_AMC0802 : AMCLCD_Model where
  getCols := 8
  getRows := 2
  getRowAddress := fun row => if row = 0 then 0x00 else 0x40
  getConfig := 0x38
  getRowAddress_lt := by intro row; dsimp only; split_ifs <;> decide
  getConfig_lt := by decide

/-- The four models that ship with the library. -/
def builtinModels : List AMCLCD_Model :=
  [AMCLCD_Model_AMC1602, AMCLCD_Model_AMC2002, AMCLCD_Model_AMC2004, AMCLCD_Model_AMC0802]

/-! ## The driver class `AMCLCD` -/

/-- Conversion of an `int` value to `uint8_t`. -/
def toUInt8 (x : Int) : Nat := (x % 256).toNat

def INST_CLEAR_DISPLAY : Nat := 0x01
def INST_RETURN_HOME : Nat := 0x02
def INST_ENTRY_MODE_SET : Nat := 0x04
def BIT_CURSOR_INCREMENT : Nat := 0b10
def BIT_DISPLAY_SHIFT : Nat := 0b01
def INST_DISPLAY_ON_OFF : Nat := 0x08
def BIT_DISPLAY_ON : Nat := 0b100
def BIT_CURSOR_ON : Nat := 0b010
def BIT_BLINKING_ON : Nat := 0b001
def INST_CURSOR_DISPLAY_SHIFT : Nat := 0x10
def INST_FUNCTION_SET : Nat := 0x20
def INST_SET_CGRAM_ADDR : Nat := 0x40
def INST_SET_DDRAM_ADDR : Nat := 0x80

/-- The data members of an `AMCLCD` object. -/
structure AMCLCD where
  model : AMCLCD_Model
  addr : Nat
  wire : TwoWire
  col : Int
  row : Int
  wrap : Bool

/-- The constructor `AMCLCD::AMCLCD(model, addr, wire)`.  The member
initialisers store the three arguments, and `col`, `row`, `wrap` take their
default member initialisers.  In the constructor body the name `addr` denotes
the parameter, which hides the member of the same name: the `|=` updates the
parameter `addrParam`, a local copy that is dropped when the constructor
returns. -/
def AMCLCD.ctor (model : AMCLCD_Model) (addr : Nat) (wire : TwoWire) : AMCLCD :=
  let this : AMCLCD :=
    { model := model, addr := addr, wire := wire, col := 0, row := 0, wrap := true }
  let addrParam : Nat := if addr < 0x4 then (addr ||| 0x3C) % 256 else addr
  (this, addrParam).1

/-- The method `AMCLCD::writeDevice(controlByte, value)`. -/
def AMCLCD.writeDevice (self : AMCLCD) (controlByte value : Nat) : Bool × AMCLCD :=
  let w := self.wire.beginTransmission self.addr
  let w := w.write controlByte
  let w := w.write value
  let (stat, w) := w.endTransmission
  (decide (stat = 0), { self with wire := w })

/-- The method `AMCLCD::writeInst(value)`. -/
def AMCLCD.writeInst (self : AMCLCD) (value : Nat) : Bool × AMCLCD :=
  self.writeDevice 0x00 value

/-- The method `AMCLCD::writeData(data)`. -/
def AMCLCD.writeData (self : AMCLCD) (data : Nat) : Bool × AMCLCD :=
  self.writeDevice 0x40 data

/-- The method `AMCLCD::begin()`; the results of the four `writeInst` calls are
discarded, as in the source. -/
def AMCLCD.begin (self : AMCLCD) : Bool × AMCLCD :=
  let self := { self with wire := self.wire.begin }
  let self := (self.writeInst ((INST_FUNCTION_SET ||| self.model.getConfig) % 256)).2
  let self := (self.writeInst ((INST_DISPLAY_ON_OFF ||| BIT_DISPLAY_ON) % 256)).2
  let self := (self.writeInst INST_CLEAR_DISPLAY).2
  let self := (self.writeInst ((INST_ENTRY_MODE_SET ||| BIT_CURSOR_INCREMENT) % 256)).2
  (true, self)

/-- The inline method `AMCLCD::setPosition(col, row)`. -/
def AMCLCD.setPosition (self : AMCLCD) (col : Int) (row : Int) : AMCLCD :=
  { self with col := col, row := row }

/-- The inline method `AMCLCD::getCol()`. -/
def AMCLCD.getCol (self : AMCLCD) : Int := self.col

/-- The inline method `AMCLCD::getRow()`. -/
def AMCLCD.getRow (self : AMCLCD) : Int := self.row

/-- The inline method `AMCLCD::setWrap(wrap)`. -/
def AMCLCD.setWrap (self : AMCLCD) (wrap : Bool) : AMCLCD :=
  { self with wrap := wrap }

/-- The inline method `AMCLCD::getWrap()`. -/
def AMCLCD.getWrap (self : AMCLCD) : Bool := self.wrap

/-- The method `AMCLCD::write(b)`; 13 is the carriage return and 10 the line
feed.  The result is the returned `size_t` and the object afterwards. -/
def AMCLCD.write (self : AMCLCD) (b : Nat) : Nat × AMCLCD :=
  if b = 13 then
    (1, { self with col := 0 })
  else if b = 10 then
    (1, { self with row := self.row + 1 })
  else
    let self :=
      if self.wrap then
        if self.col ≥ self.model.getCols then
          { self with col := 0, row := self.row + 1 }
        else self
      else self
    if self.col < self.model.getCols ∧ self.row < self.model.getRows then
      let addr : Nat := toUInt8 (self.model.getRowAddress self.row + self.col)
      let self := (self.writeInst ((INST_SET_DDRAM_ADDR ||| addr) % 256)).2
      let self := (self.writeData b).2
      (1, { self with col := self.col + 1 })
    else
      (1, self)

/-- The largest value of the 32-bit `int` of the target platform. -/
def INT_MAX : Int := 2147483647

/-- The object after the wrap adjustment of `AMCLCD::write`, that is after the
block `if (wrap) { if (col >= model.getCols()) { col = 0; row++; } }`. -/
def AMCLCD.afterWrap (self : AMCLCD) : AMCLCD :=
  if self.wrap then
    if self.col ≥ self.model.getCols then
      { self with col := 0, row := self.row + 1 }
    else self
  else self

/-- The method `AMCLCD::clearDisplay()`; 32 is the space character. -/
def AMCLCD.clearDisplay (self : AMCLCD) : AMCLCD :=
  let self := (self.writeInst INST_SET_DDRAM_ADDR).2
  let self := (self.writeData 32).2
  let self := (self.writeInst INST_CLEAR_DISPLAY).2
  self

/-- Calling `write` on each byte of a buffer in turn, as the inherited
`Print::write(const uint8_t*, size_t)` and `print` do. -/
def AMCLCD.writeBytes (self : AMCLCD) : List Nat → AMCLCD
  | [] => self
  | b :: bs => AMCLCD.writeBytes (self.write b).2 bs

/-- A freshly constructed driver, on an idle bus, for `model` at `addr`. -/
def AMCLCD.fresh (model : AMCLCD_Model) (addr : Nat) : AMCLCD :=
  AMCLCD.ctor model addr TwoWire.idle

/-- A user-defined model, as the header allows: one row of 300 columns that
starts at address 0. -/
def wideModel : AMCLCD_Model where
  getCols := 300
  getRows := 1
  getRowAddress := fun _ => 0x00
  getConfig := 0x38
  getRowAddress_lt := by intro row; show (0 : Nat) < 256; decide
  getConfig_lt := by decide

/-- A 16x2 driver at address `0x3C` right after construction, as in
`examples/1-simple`. -/
def lcd1602 : AMCLCD := AMCLCD.fresh AMCLCD_Model_AMC1602 0x3C

/-- A 20x4 driver at address `0x3C` right after construction. -/
def lcd2004 : AMCLCD := AMCLCD.fresh AMCLCD_Model_AMC2004 0x3C

/-- A driver for the 300-column model at address `0x3C` right after
construction. -/
def lcdWide : AMCLCD := AMCLCD.fresh wideModel 0x3C

/-- The bytes of the string `"HELLO WORLD!"`. -/
def helloWorld : List Nat := [72, 69, 76, 76, 79, 32, 87, 79, 82, 76, 68, 33]

/-- The same driver on a bus whose `endTransmission` statuses are given by
`st`. -/
def AMCLCD.withStatus (self : AMCLCD) (st : Nat → Int) : AMCLCD :=
  { self with wire := { self.wire with status := st } }

/-- A call of one of the public state-changing methods of `AMCLCD`. -/
inductive Op where
  | begin
  | write (b : Nat)
  | setPosition (col : Int) (row : Int)
  | setWrap (wrap : Bool)
  | clearDisplay
  | writeInst (value : Nat)
  | writeData (data : Nat)

/-- The object after one call. -/
def AMCLCD.step (self : AMCLCD) : Op → AMCLCD
  | Op.begin => self.begin.2
  | Op.write b => (self.write b).2
  | Op.setPosition col row => self.setPosition col row
  | Op.setWrap wrap => self.setWrap wrap
  | Op.clearDisplay => self.clearDisplay
  | Op.writeInst value => (self.writeInst value).2
  | Op.writeData data => (self.writeData data).2

/-- The object after a sequence of calls, first call first. -/
def AMCLCD.run (self : AMCLCD) : List Op → AMCLCD
  | [] => self
  | o :: os => AMCLCD.run (self.step o) os

/-- The calls that are `write` or `setWrap`. -/
def Op.isWriteOrSetWrap : Op → Bool
  | Op.write _ => true
  | Op.setWrap _ => true
  | _ => false

/-- The cursor positions in which the next character written with wrap on
goes to cell number `k` in row-major order: either the cursor is on that cell,
or it stands just past the end of the row before it. -/
def AMCLCD.atCell (self : AMCLCD) (k : Nat) : Prop :=
  self.wrap = true ∧
  ((self.col = (k : Int) % self.model.getCols ∧ self.row = (k : Int) / self.model.getCols) ∨
   (self.col = self.model.getCols ∧ self.row + 1 = (k : Int) / self.model.getCols ∧
    (k : Int) % self.model.getCols = 0))

instance (self : AMCLCD) (k : Nat) : Decidable (self.atCell k) := by
  unfold AMCLCD.atCell
  infer_instance

/-! ## Basic facts about the embedding -/

theorem toUInt8_lt (x : Int) : toUInt8 x < 256 := by
  unfold toUInt8
  have h : x % 256 < 256 := Int.emod_lt_of_pos x (by decide)
  have h0 : 0 ≤ x % 256 := Int.emod_nonneg x (by decide)
  omega

theorem toUInt8_of_lt (x : Int) (h0 : 0 ≤ x) (h : x < 256) : toUInt8 x = x.toNat := by
  unfold toUInt8
  rw [Int.emod_eq_of_lt h0 h]

theorem or_mod_256 (a b : Nat) (ha : a < 256) (hb : b < 256) : (a ||| b) % 256 = a ||| b :=
  Nat.mod_eq_of_lt (Nat.or_lt_two_pow (n := 8) ha hb)

@[simp] theorem writeDevice_sent (s : AMCLCD) (c v : Nat) :
    (s.writeDevice c v).2.wire.sent = s.wire.sent ++ [{ addr := s.addr, bytes := [c, v] }] := by
  simp [AMCLCD.writeDevice, TwoWire.endTransmission, TwoWire.write, TwoWire.beginTransmission]

@[simp] theorem writeDevice_status (s : AMCLCD) (c v : Nat) :
    (s.writeDevice c v).2.wire.status = s.wire.status := rfl

@[simp] theorem writeDevice_begun (s : AMCLCD) (c v : Nat) :
    (s.writeDevice c v).2.wire.begun = s.wire.begun := rfl

@[simp] theorem writeDevice_model (s : AMCLCD) (c v : Nat) :
    (s.writeDevice c v).2.model = s.model := rfl

@[simp] theorem writeDevice_addr (s : AMCLCD) (c v : Nat) :
    (s.writeDevice c v).2.addr = s.addr := rfl

@[simp] theorem writeDevice_col (s : AMCLCD) (c v : Nat) :
    (s.writeDevice c v).2.col = s.col := rfl

@[simp] theorem writeDevice_row (s : AMCLCD) (c v : Nat) :
    (s.writeDevice c v).2.row = s.row := rfl

@[simp] theorem writeDevice_wrap (s : AMCLCD) (c v : Nat) :
    (s.writeDevice c v).2.wrap = s.wrap := rfl

/-- The effect of `write` on a byte that is neither CR nor LF, with the cursor
inside the visible area: no wrap, one instruction frame, one data frame. -/
theorem write_inside (s : AMCLCD) (b : Nat) (hcr : b ≠ 13) (hlf : b ≠ 10)
    (hc : s.col < s.model.getCols) (hr : s.row < s.model.getRows) :
    (s.write b).1 = 1 ∧
    (s.write b).2.wire.sent = s.wire.sent ++
      [{ addr := s.addr,
         bytes := [0x00, (0x80 ||| toUInt8 (s.model.getRowAddress s.row + s.col)) % 256] },
       { addr := s.addr, bytes := [0x40, b] }] ∧
    (s.write b).2.col = s.col + 1 ∧ (s.write b).2.row = s.row ∧
    (s.write b).2.wrap = s.wrap ∧ (s.write b).2.model = s.model ∧
    (s.write b).2.addr = s.addr := by
  have hnc : ¬ (s.model.getCols ≤ s.col) := not_le.mpr hc
  cases hw : s.wrap <;>
    simp [AMCLCD.write, AMCLCD.writeInst, AMCLCD.writeData, INST_SET_DDRAM_ADDR, hcr, hlf, hw,
      hc, hr, hnc]

/-- The effect of `write` on a byte that is neither CR nor LF when no wrap
happens and the bounds check fails: nothing changes. -/
theorem write_outside (s : AMCLCD) (b : Nat) (hcr : b ≠ 13) (hlf : b ≠ 10)
    (hnw : s.wrap = false ∨ s.col < s.model.getCols)
    (hout : ¬ (s.col < s.model.getCols ∧ s.row < s.model.getRows)) :
    s.write b = (1, s) := by
  rcases hnw with hw | hc
  · simp [AMCLCD.write, hcr, hlf, hw, hout]
  · have hnc : ¬ (s.model.getCols ≤ s.col) := not_le.mpr hc
    cases hw : s.wrap <;> simp [AMCLCD.write, hcr, hlf, hw, hout, hnc]

/-- The effect of `write` on a byte that is neither CR nor LF when the wrap
happens and the wrapped position fails the bounds check. -/
theorem write_wrap_outside (s : AMCLCD) (b : Nat) (hcr : b ≠ 13) (hlf : b ≠ 10)
    (hw : s.wrap = true) (hc : s.model.getCols ≤ s.col)
    (hout : ¬ (0 < s.model.getCols ∧ s.row + 1 < s.model.getRows)) :
    s.write b = (1, { s with col := 0, row := s.row + 1 }) := by
  simp [AMCLCD.write, hcr, hlf, hw, hc, hout]

/-- The effect of `write` on a byte that is neither CR nor LF when the wrap
happens and the wrapped position passes the bounds check. -/
theorem write_wrap_inside (s : AMCLCD) (b : Nat) (hcr : b ≠ 13) (hlf : b ≠ 10)
    (hw : s.wrap = true) (hc : s.model.getCols ≤ s.col)
    (h0 : 0 < s.model.getCols) (hr : s.row + 1 < s.model.getRows) :
    (s.write b).1 = 1 ∧
    (s.write b).2.wire.sent = s.wire.sent ++
      [{ addr := s.addr,
         bytes := [0x00, (0x80 ||| toUInt8 (s.model.getRowAddress (s.row + 1))) % 256] },
       { addr := s.addr, bytes := [0x40, b] }] ∧
    (s.write b).2.col = 1 ∧ (s.write b).2.row = s.row + 1 ∧
    (s.write b).2.wrap = s.wrap ∧ (s.write b).2.model = s.model ∧
    (s.write b).2.addr = s.addr := by
  simp [AMCLCD.write, AMCLCD.writeInst, AMCLCD.writeData, INST_SET_DDRAM_ADDR, hcr, hlf, hw,
    hc, h0, hr]

/-- The instruction byte of a set-address frame when the address fits a byte. -/
theorem setAddr_byte (ra c : Nat) (h : ra + c < 256) :
    (0x80 ||| toUInt8 ((ra : Int) + (c : Int))) % 256 = 0x80 ||| (ra + c) := by
  have h1 : toUInt8 ((ra : Int) + (c : Int)) = ra + c := by
    rw [toUInt8_of_lt _ (by omega) (by omega)]
    omega
  rw [h1]
  exact or_mod_256 _ _ (by decide) h

/-- Every visible cell of a built-in model has an address of at most `0x67`. -/
theorem builtin_addr_le (m : AMCLCD_Model) (hm : m ∈ builtinModels) (row : Int) (c : Nat)
    (hr : row < m.getRows) (hc : (c : Int) < m.getCols) :
    m.getRowAddress row + c ≤ 0x67 := by
  simp only [builtinModels, List.mem_cons, List.mem_singleton, List.not_mem_nil, or_false] at hm
  rcases hm with rfl | rfl | rfl | rfl
  · simp only [AMCLCD_Model_AMC1602] at hr hc ⊢
    split_ifs <;> omega
  · simp only [AMCLCD_Model_AMC2002] at hr hc ⊢
    split_ifs <;> omega
  · simp only [AMCLCD_Model_AMC2004] at hr hc ⊢
    split_ifs <;> omega
  · simp only [AMCLCD_Model_AMC0802] at hr hc ⊢
    split_ifs <;> omega

/-- Writing a run of bytes, none of them CR or LF, that fits on the current row
from column `k` on: one set-address frame and one data frame per byte, at
consecutive addresses, and the cursor moves right by the length of the run. -/
theorem writeBytes_run (bs : List Nat) :
    ∀ (s : AMCLCD) (k : Nat), (∀ x ∈ bs, x ≠ 13 ∧ x ≠ 10) → s.col = (k : Int) →
      ((k + bs.length : Nat) : Int) ≤ s.model.getCols → s.row < s.model.getRows →
      (∀ c : Nat, (c : Int) < s.model.getCols → s.model.getRowAddress s.row + c < 256) →
      (s.writeBytes bs).wire.sent = s.wire.sent ++
        (bs.enumFrom k).flatMap (fun p =>
          [{ addr := s.addr, bytes := [0x00, 0x80 ||| (s.model.getRowAddress s.row + p.1)] },
           { addr := s.addr, bytes := [0x40, p.2] }]) ∧
      (s.writeBytes bs).col = ((k + bs.length : Nat) : Int) ∧
      (s.writeBytes bs).row = s.row ∧ (s.writeBytes bs).wrap = s.wrap ∧
      (s.writeBytes bs).model = s.model ∧ (s.writeBytes bs).addr = s.addr := by
  induction bs with
  | nil =>
    intro s k _ hk _ _ _
    simp [AMCLCD.writeBytes, hk]
  | cons b bs ih =>
    intro s k hbs hk hlen hrow hfit
    have hb := hbs b (List.mem_cons_self b bs)
    have hlen1 : ((k + (bs.length + 1) : Nat) : Int) ≤ s.model.getCols := by
      simpa using hlen
    have hcol : s.col < s.model.getCols := by rw [hk]; push_cast at hlen1 ⊢; omega
    obtain ⟨-, hsent, hc1, hr1, hw1, hm1, ha1⟩ := write_inside s b hb.1 hb.2 hcol hrow
    have hk1 : (s.write b).2.col = ((k + 1 : Nat) : Int) := by rw [hc1, hk]; push_cast; rfl
    have hlen2 : (((k + 1) + bs.length : Nat) : Int) ≤ (s.write b).2.model.getCols := by
      rw [hm1]; push_cast at hlen1 ⊢; omega
    have ih1 := ih (s.write b).2 (k + 1) (fun x hx => hbs x (List.mem_cons_of_mem b hx)) hk1
      hlen2 (by rw [hr1, hm1]; exact hrow) (by rw [hr1, hm1]; exact hfit)
    obtain ⟨isent, ic, ir, iw, im, ia⟩ := ih1
    have hbyte := setAddr_byte (s.model.getRowAddress s.row) k
      (hfit k (by rw [← hk]; exact hcol))
    refine ⟨?_, ?_, ?_, ?_, ?_, ?_⟩
    · simp only [AMCLCD.writeBytes, isent, hsent, hr1, hm1, ha1, List.enumFrom_cons,
        List.flatMap_cons, hk, hbyte]
      simp
    · simp only [AMCLCD.writeBytes, ic, List.length_cons]
      push_cast; omega
    · simp only [AMCLCD.writeBytes, ir, hr1]
    · simp only [AMCLCD.writeBytes, iw, hw1]
    · simp only [AMCLCD.writeBytes, im, hm1]
    · simp only [AMCLCD.writeBytes, ia, ha1]

/-! ## The claims -/

/-- C1 (code defect): the constructor stores the address argument as it is,
for every argument: the `|= 0x3C` of the constructor body acts on the parameter
and not on the member.  So for `k = 0` the address that `writeDevice` hands to
`beginTransmission` is 0 and not `0x3C | 0`; the same holds for 1, 2 and 3. -/
theorem C1_constructor_keeps_raw_address :
    (∀ (model : AMCLCD_Model) (k : Nat) (w : TwoWire), (AMCLCD.ctor model k w).addr = k) ∧
    (∀ (model : AMCLCD_Model) (k : Nat) (w : TwoWire) (c v : Nat),
      ((AMCLCD.ctor model k w).writeDevice c v).2.wire.sent
        = w.sent ++ [{ addr := k, bytes := [c, v] }]) ∧
    (AMCLCD.ctor AMCLCD_Model_AMC1602 0 TwoWire.idle).addr = 0 ∧
    (AMCLCD.ctor AMCLCD_Model_AMC1602 0 TwoWire.idle).addr ≠ 0x3C ||| 0 ∧
    (AMCLCD.ctor AMCLCD_Model_AMC1602 1 TwoWire.idle).addr ≠ 0x3C ||| 1 ∧
    (AMCLCD.ctor AMCLCD_Model_AMC1602 2 TwoWire.idle).addr ≠ 0x3C ||| 2 ∧
    (AMCLCD.ctor AMCLCD_Model_AMC1602 3 TwoWire.idle).addr ≠ 0x3C ||| 3 := by
  refine ⟨fun _ _ _ => rfl, fun model k w c v => ?_, rfl, by decide, by decide, by decide,
    by decide⟩
  rw [writeDevice_sent]
  rfl

/-- C2 (as amended): with the cursor inside the visible area of the model, for
every wrap setting and every byte other than CR and LF, `write` sends exactly
the instruction frame `[0x00, 0x80 | ((getRowAddress(row) + col) mod 256)]`
and then the data frame `[0x40, b]`, returns 1, moves `col` right by one and
leaves `row` and `wrap` as they were. -/
theorem C2_write_inside_frames (s : AMCLCD) (b : Nat)
    (hc0 : 0 ≤ s.col) (hc : s.col < s.model.getCols)
    (hr0 : 0 ≤ s.row) (hr : s.row < s.model.getRows)
    (hcr : b ≠ 13) (hlf : b ≠ 10) :
    (s.write b).1 = 1 ∧
    (s.write b).2.wire.sent = s.wire.sent ++
      [{ addr := s.addr,
         bytes := [0x00, 0x80 ||| (((s.model.getRowAddress s.row : Int) + s.col) % 256).toNat] },
       { addr := s.addr, bytes := [0x40, b] }] ∧
    (s.write b).2.col = s.col + 1 ∧ (s.write b).2.row = s.row ∧
    (s.write b).2.wrap = s.wrap := by
  obtain ⟨h1, hsent, hcol, hrow, hwrap, -, -⟩ := write_inside s b hcr hlf hc hr
  have hbyte : (0x80 ||| toUInt8 ((s.model.getRowAddress s.row : Int) + s.col)) % 256
      = 0x80 ||| (((s.model.getRowAddress s.row : Int) + s.col) % 256).toNat :=
    or_mod_256 _ _ (by decide) (toUInt8_lt _)
  rw [hbyte] at hsent
  exact ⟨h1, hsent, hcol, hrow, hwrap⟩

/-- Witness for C2: the 16x2 driver with the cursor at (5, 1). -/
theorem C2_write_inside_frames_witness :
    ((lcd1602.setPosition 5 1).write 65).1 = 1 ∧
    ((lcd1602.setPosition 5 1).write 65).2.wire.sent = (lcd1602.setPosition 5 1).wire.sent ++
      [{ addr := (lcd1602.setPosition 5 1).addr,
         bytes := [0x00, 0x80 ||| ((((lcd1602.setPosition 5 1).model.getRowAddress
            (lcd1602.setPosition 5 1).row : Int) + (lcd1602.setPosition 5 1).col) % 256).toNat] },
       { addr := (lcd1602.setPosition 5 1).addr, bytes := [0x40, 65] }] ∧
    ((lcd1602.setPosition 5 1).write 65).2.col = (lcd1602.setPosition 5 1).col + 1 ∧
    ((lcd1602.setPosition 5 1).write 65).2.row = (lcd1602.setPosition 5 1).row ∧
    ((lcd1602.setPosition 5 1).write 65).2.wrap = (lcd1602.setPosition 5 1).wrap :=
  C2_write_inside_frames (lcd1602.setPosition 5 1) 65 (by decide) (by decide) (by decide)
    (by decide) (by decide) (by decide)

/-- Counterexample to C2 as stated: on the 300-column model with the cursor at
(256, 0), inside the visible area, `write(65)` sends the instruction frame
`[0x00, 0x80]`, while `0x80 | (getRowAddress(0) + 256)` is `0x180`. -/
theorem C2_counterexample :
    0 ≤ (lcdWide.setPosition 256 0).col ∧
    (lcdWide.setPosition 256 0).col < (lcdWide.setPosition 256 0).model.getCols ∧
    0 ≤ (lcdWide.setPosition 256 0).row ∧
    (lcdWide.setPosition 256 0).row < (lcdWide.setPosition 256 0).model.getRows ∧
    (65 : Nat) ≠ 13 ∧ (65 : Nat) ≠ 10 ∧
    ((lcdWide.setPosition 256 0).write 65).2.wire.sent =
      [{ addr := 0x3C, bytes := [0x00, 0x80] }, { addr := 0x3C, bytes := [0x40, 65] }] ∧
    ((lcdWide.setPosition 256 0).write 65).2.wire.sent ≠
      (lcdWide.setPosition 256 0).wire.sent ++
        [{ addr := (lcdWide.setPosition 256 0).addr,
           bytes := [0x00, 0x80 ||| (((lcdWide.setPosition 256 0).model.getRowAddress
              (lcdWide.setPosition 256 0).row : Int) + (lcdWide.setPosition 256 0).col).toNat] },
         { addr := (lcdWide.setPosition 256 0).addr, bytes := [0x40, 65] }] := by
  decide

/-- C3: the row addresses of the 20x4 model are `0x00, 0x40, 0x14, 0x54` for
rows 0 to 3; each of the three other built-in models gives `0x00` for row 0 and
`0x40` for every other row; so row 0 is at `0x00` on all four. -/
theorem C3_row_addresses :
    AMCLCD_Model_AMC2004.getRowAddress 0 = 0x00 ∧
    AMCLCD_Model_AMC2004.getRowAddress 1 = 0x40 ∧
    AMCLCD_Model_AMC2004.getRowAddress 2 = 0x14 ∧
    AMCLCD_Model_AMC2004.getRowAddress 3 = 0x54 ∧
    (∀ r : Int, AMCLCD_Model_AMC1602.getRowAddress r = if r = 0 then 0x00 else 0x40) ∧
    (∀ r : Int, AMCLCD_Model_AMC2002.getRowAddress r = if r = 0 then 0x00 else 0x40) ∧
    (∀ r : Int, AMCLCD_Model_AMC0802.getRowAddress r = if r = 0 then 0x00 else 0x40) ∧
    AMCLCD_Model_AMC1602.getRowAddress 0 = 0x00 ∧
    AMCLCD_Model_AMC2002.getRowAddress 0 = 0x00 ∧
    AMCLCD_Model_AMC0802.getRowAddress 0 = 0x00 :=
  ⟨rfl, rfl, rfl, rfl, fun _ => rfl, fun _ => rfl, fun _ => rfl, rfl, rfl, rfl⟩

/-- C4: wrap law.  On a built-in model with `C` columns, with wrap on and the
cursor at (0, r) where `0 <= r` and `r + 1 < rows`, writing `C` bytes (none CR
or LF) puts the i-th of them at column i of row r, and one more such byte is
placed at (0, r+1): its set-address instruction is `0x80 | getRowAddress(r+1)`
and the cursor ends at (1, r+1). -/
theorem C4_wrap_law (m : AMCLCD_Model) (hm : m ∈ builtinModels) (s : AMCLCD)
    (hs : s.model = m) (hw : s.wrap = true) (hc : s.col = 0)
    (hr0 : 0 ≤ s.row) (hr1 : s.row + 1 < m.getRows)
    (bs : List Nat) (hlen : (bs.length : Int) = m.getCols)
    (hbs : ∀ x ∈ bs, x ≠ 13 ∧ x ≠ 10) (b : Nat) (hcr : b ≠ 13) (hlf : b ≠ 10) :
    (s.writeBytes bs).wire.sent = s.wire.sent ++
      bs.enum.flatMap (fun p =>
        [{ addr := s.addr, bytes := [0x00, 0x80 ||| (m.getRowAddress s.row + p.1)] },
         { addr := s.addr, bytes := [0x40, p.2] }]) ∧
    ((s.writeBytes bs).write b).2.wire.sent = (s.writeBytes bs).wire.sent ++
      [{ addr := s.addr, bytes := [0x00, 0x80 ||| m.getRowAddress (s.row + 1)] },
       { addr := s.addr, bytes := [0x40, b] }] ∧
    ((s.writeBytes bs).write b).2.col = 1 ∧
    ((s.writeBytes bs).write b).2.row = s.row + 1 := by
  subst hs
  have hrow : s.row < s.model.getRows := by omega
  have hfit : ∀ c : Nat, (c : Int) < s.model.getCols →
      s.model.getRowAddress s.row + c < 256 := fun c hcc => by
    have := builtin_addr_le s.model hm s.row c hrow hcc
    omega
  obtain ⟨rsent, rcol, rrow, rwrap, rmodel, raddr⟩ :=
    writeBytes_run bs s 0 hbs (by simpa using hc) (by simpa using hlen.le) hrow hfit
  have hcols : 0 < s.model.getCols := by
    simp only [builtinModels, List.mem_cons, List.mem_singleton, List.not_mem_nil,
      or_false] at hm
    rcases hm with h | h | h | h <;> rw [h] <;> decide
  have hge : (s.writeBytes bs).model.getCols ≤ (s.writeBytes bs).col := by
    rw [rmodel, rcol, ← hlen]; simp
  obtain ⟨-, wsent, wcol, wrow, -, -, -⟩ :=
    write_wrap_inside (s.writeBytes bs) b hcr hlf (by rw [rwrap, hw]) hge
      (by rw [rmodel]; exact hcols) (by rw [rmodel, rrow]; exact hr1)
  have hbyte := setAddr_byte (s.model.getRowAddress (s.row + 1)) 0
    (by have := s.model.getRowAddress_lt (s.row + 1); omega)
  simp only [Nat.cast_zero, add_zero] at hbyte
  rw [rmodel, rrow, raddr, hbyte] at wsent
  exact ⟨rsent, wsent, wcol, by rw [wrow, rrow]⟩

/-- Witness for C4: the 8x2 model, row 0, the bytes `ABCDEFGH` and then `I`. -/
theorem C4_wrap_law_witness :
    ((AMCLCD.fresh AMCLCD_Model_AMC0802 0x3C).writeBytes
        [65, 66, 67, 68, 69, 70, 71, 72]).wire.sent
      = (AMCLCD.fresh AMCLCD_Model_AMC0802 0x3C).wire.sent ++
        ([65, 66, 67, 68, 69, 70, 71, 72] : List Nat).enum.flatMap (fun p =>
          [{ addr := (AMCLCD.fresh AMCLCD_Model_AMC0802 0x3C).addr,
             bytes := [0x00, 0x80 ||| (AMCLCD_Model_AMC0802.getRowAddress
                (AMCLCD.fresh AMCLCD_Model_AMC0802 0x3C).row + p.1)] },
           { addr := (AMCLCD.fresh AMCLCD_Model_AMC0802 0x3C).addr, bytes := [0x40, p.2] }]) ∧
    (((AMCLCD.fresh AMCLCD_Model_AMC0802 0x3C).writeBytes
        [65, 66, 67, 68, 69, 70, 71, 72]).write 73).2.wire.sent
      = ((AMCLCD.fresh AMCLCD_Model_AMC0802 0x3C).writeBytes
          [65, 66, 67, 68, 69, 70, 71, 72]).wire.sent ++
        [{ addr := (AMCLCD.fresh AMCLCD_Model_AMC0802 0x3C).addr,
           bytes := [0x00, 0x80 ||| AMCLCD_Model_AMC0802.getRowAddress
              ((AMCLCD.fresh AMCLCD_Model_AMC0802 0x3C).row + 1)] },
         { addr := (AMCLCD.fresh AMCLCD_Model_AMC0802 0x3C).addr, bytes := [0x40, 73] }] ∧
    (((AMCLCD.fresh AMCLCD_Model_AMC0802 0x3C).writeBytes
        [65, 66, 67, 68, 69, 70, 71, 72]).write 73).2.col = 1 ∧
    (((AMCLCD.fresh AMCLCD_Model_AMC0802 0x3C).writeBytes
        [65, 66, 67, 68, 69, 70, 71, 72]).write 73).2.row
      = (AMCLCD.fresh AMCLCD_Model_AMC0802 0x3C).row + 1 :=
  C4_wrap_law AMCLCD_Model_AMC0802 (by simp [builtinModels])
    (AMCLCD.fresh AMCLCD_Model_AMC0802 0x3C) rfl rfl rfl (by decide) (by decide)
    [65, 66, 67, 68, 69, 70, 71, 72] (by decide) (by decide) 73 (by decide) (by decide)

/-- C5 (as amended): when the row is at or beyond the row count of the model
and below `INT_MAX` (so that `row++` cannot overflow), `write` of a byte other
than CR and LF sends nothing; `col` and `row` stay as they were unless wrap is
on and `col >= cols`, in which case the wrap step still runs: `col` becomes 0
and `row` grows by one.  The row afterwards is still an `int` value. -/
theorem C5_row_out_of_bounds_drop (s : AMCLCD) (b : Nat)
    (hrow : s.model.getRows ≤ s.row) (hov : s.row < INT_MAX)
    (hcr : b ≠ 13) (hlf : b ≠ 10) :
    (s.write b).2.wire.sent = s.wire.sent ∧
    (s.write b).2.wrap = s.wrap ∧
    (s.write b).2.col = (if s.wrap = true ∧ s.model.getCols ≤ s.col then 0 else s.col) ∧
    (s.write b).2.row
      = (if s.wrap = true ∧ s.model.getCols ≤ s.col then s.row + 1 else s.row) ∧
    (s.write b).2.row ≤ INT_MAX := by
  by_cases hwc : s.wrap = true ∧ s.model.getCols ≤ s.col
  · have h := write_wrap_outside s b hcr hlf hwc.1 hwc.2 (by omega)
    rw [h, if_pos hwc, if_pos hwc]
    exact ⟨rfl, rfl, rfl, rfl, Int.add_one_le_of_lt hov⟩
  · have hnw : s.wrap = false ∨ s.col < s.model.getCols := by
      cases hw : s.wrap
      · exact Or.inl rfl
      · right
        by_contra hh
        exact hwc ⟨hw, not_lt.mp hh⟩
    have h := write_outside s b hcr hlf hnw (by omega)
    rw [h, if_neg hwc, if_neg hwc]
    exact ⟨rfl, rfl, rfl, rfl, le_of_lt hov⟩

/-- Witness for C5: the 16x2 driver with wrap on and the cursor at (16, 5). -/
theorem C5_row_out_of_bounds_drop_witness :
    ((lcd1602.setPosition 16 5).write 65).2.wire.sent = (lcd1602.setPosition 16 5).wire.sent ∧
    ((lcd1602.setPosition 16 5).write 65).2.wrap = (lcd1602.setPosition 16 5).wrap ∧
    ((lcd1602.setPosition 16 5).write 65).2.col
      = (if (lcd1602.setPosition 16 5).wrap = true ∧
            (lcd1602.setPosition 16 5).model.getCols ≤ (lcd1602.setPosition 16 5).col
          then 0 else (lcd1602.setPosition 16 5).col) ∧
    ((lcd1602.setPosition 16 5).write 65).2.row
      = (if (lcd1602.setPosition 16 5).wrap = true ∧
            (lcd1602.setPosition 16 5).model.getCols ≤ (lcd1602.setPosition 16 5).col
          then (lcd1602.setPosition 16 5).row + 1 else (lcd1602.setPosition 16 5).row) ∧
    ((lcd1602.setPosition 16 5).write 65).2.row ≤ INT_MAX :=
  C5_row_out_of_bounds_drop (lcd1602.setPosition 16 5) 65 (by decide) (by decide) (by decide)
    (by decide)

/-- Counterexample to C5 as stated: on the 16x2 driver with wrap on and the
cursor at (16, 2), the row is out of bounds and `write(65)` sends nothing, yet
the cursor moves to (0, 3). -/
theorem C5_counterexample :
    (lcd1602.setPosition 16 2).model.getRows ≤ (lcd1602.setPosition 16 2).row ∧
    (65 : Nat) ≠ 13 ∧ (65 : Nat) ≠ 10 ∧
    ((lcd1602.setPosition 16 2).write 65).2.wire.sent = (lcd1602.setPosition 16 2).wire.sent ∧
    ((lcd1602.setPosition 16 2).write 65).2.col = 0 ∧
    ((lcd1602.setPosition 16 2).write 65).2.row = 3 ∧
    ¬ (((lcd1602.setPosition 16 2).write 65).2.col = (lcd1602.setPosition 16 2).col ∧
       ((lcd1602.setPosition 16 2).write 65).2.row = (lcd1602.setPosition 16 2).row) := by
  decide

/-- C6: no-wrap boundary.  With wrap off and `col` equal to the column count
of the model, on any row, `write` of a byte other than CR and LF sends nothing
and leaves `col`, `row` and `wrap` as they were. -/
theorem C6_no_wrap_boundary (s : AMCLCD) (b : Nat)
    (hw : s.wrap = false) (hc : s.col = s.model.getCols) (hcr : b ≠ 13) (hlf : b ≠ 10) :
    (s.write b).2.wire.sent = s.wire.sent ∧
    (s.write b).2.col = s.col ∧ (s.write b).2.row = s.row ∧ (s.write b).2.wrap = s.wrap := by
  have h := write_outside s b hcr hlf (Or.inl hw) (by omega)
  rw [h]
  exact ⟨rfl, rfl, rfl, rfl⟩

/-- Witness for C6: the 16x2 driver with wrap off and the cursor at (16, 0). -/
theorem C6_no_wrap_boundary_witness :
    ((((lcd1602.setWrap false).setPosition 16 0).write 65).2.wire.sent
      = ((lcd1602.setWrap false).setPosition 16 0).wire.sent ∧
    (((lcd1602.setWrap false).setPosition 16 0).write 65).2.col
      = ((lcd1602.setWrap false).setPosition 16 0).col ∧
    (((lcd1602.setWrap false).setPosition 16 0).write 65).2.row
      = ((lcd1602.setWrap false).setPosition 16 0).row ∧
    (((lcd1602.setWrap false).setPosition 16 0).write 65).2.wrap
      = ((lcd1602.setWrap false).setPosition 16 0).wrap) :=
  C6_no_wrap_boundary ((lcd1602.setWrap false).setPosition 16 0) 65 rfl rfl (by decide)
    (by decide)

/-- C7: from every driver state, `write(CR)` followed by `write(LF)` sends
nothing and ends in exactly the state that `setPosition(0, row + 1)` produces
from the same start: `col = 0`, `row = row + 1`, `wrap` as before.  Both calls
return 1. -/
theorem C7_cr_lf_is_setPosition (s : AMCLCD) :
    ((s.write 13).2.write 10).2 = s.setPosition 0 (s.row + 1) ∧
    ((s.write 13).2.write 10).2.wire.sent = s.wire.sent ∧
    ((s.write 13).2.write 10).2.col = 0 ∧
    ((s.write 13).2.write 10).2.row = s.row + 1 ∧
    ((s.write 13).2.write 10).2.wrap = s.wrap ∧
    (s.write 13).1 = 1 ∧ ((s.write 13).2.write 10).1 = 1 :=
  ⟨rfl, rfl, rfl, rfl, rfl, rfl, rfl⟩

/-- C8: on the 16x2 model, from cursor (0, 0) with wrap on, writing `n <= 16`
bytes, none of them CR or LF, sends exactly `n` pairs of frames, the i-th pair
being `[0x00, 0x80 | i]` and `[0x40, b_i]`, and leaves the cursor at (n, 0).
For `"HELLO WORLD!"` these are the 12 pairs at `0x80` to `0x8B`, with the
cursor at (12, 0) afterwards. -/
theorem C8_first_row_1602 (s : AMCLCD) (bs : List Nat)
    (hs : s.model = AMCLCD_Model_AMC1602) (hc : s.col = 0) (hr : s.row = 0)
    (hw : s.wrap = true) (hn : bs.length ≤ 16) (hbs : ∀ x ∈ bs, x ≠ 13 ∧ x ≠ 10) :
    (s.writeBytes bs).wire.sent = s.wire.sent ++
      bs.enum.flatMap (fun p =>
        [{ addr := s.addr, bytes := [0x00, 0x80 ||| p.1] },
         { addr := s.addr, bytes := [0x40, p.2] }]) ∧
    (s.writeBytes bs).col = (bs.length : Int) ∧ (s.writeBytes bs).row = 0 ∧
    (s.writeBytes bs).wrap = true ∧
    (lcd1602.writeBytes helloWorld).wire.sent =
      [{ addr := 0x3C, bytes := [0x00, 0x80] }, { addr := 0x3C, bytes := [0x40, 72] },
       { addr := 0x3C, bytes := [0x00, 0x81] }, { addr := 0x3C, bytes := [0x40, 69] },
       { addr := 0x3C, bytes := [0x00, 0x82] }, { addr := 0x3C, bytes := [0x40, 76] },
       { addr := 0x3C, bytes := [0x00, 0x83] }, { addr := 0x3C, bytes := [0x40, 76] },
       { addr := 0x3C, bytes := [0x00, 0x84] }, { addr := 0x3C, bytes := [0x40, 79] },
       { addr := 0x3C, bytes := [0x00, 0x85] }, { addr := 0x3C, bytes := [0x40, 32] },
       { addr := 0x3C, bytes := [0x00, 0x86] }, { addr := 0x3C, bytes := [0x40, 87] },
       { addr := 0x3C, bytes := [0x00, 0x87] }, { addr := 0x3C, bytes := [0x40, 79] },
       { addr := 0x3C, bytes := [0x00, 0x88] }, { addr := 0x3C, bytes := [0x40, 82] },
       { addr := 0x3C, bytes := [0x00, 0x89] }, { addr := 0x3C, bytes := [0x40, 76] },
       { addr := 0x3C, bytes := [0x00, 0x8A] }, { addr := 0x3C, bytes := [0x40, 68] },
       { addr := 0x3C, bytes := [0x00, 0x8B] }, { addr := 0x3C, bytes := [0x40, 33] }] ∧
    (lcd1602.writeBytes helloWorld).col = 12 ∧ (lcd1602.writeBytes helloWorld).row = 0 := by
  have hfit : ∀ c : Nat, (c : Int) < s.model.getCols →
      s.model.getRowAddress s.row + c < 256 := fun c hcc => by
    rw [hs] at hcc ⊢
    rw [hr]
    have h0 : AMCLCD_Model_AMC1602.getRowAddress 0 = 0 := rfl
    have h16 : AMCLCD_Model_AMC1602.getCols = 16 := rfl
    rw [h0]
    rw [h16] at hcc
    omega
  obtain ⟨rsent, rcol, rrow, rwrap, -, -⟩ :=
    writeBytes_run bs s 0 hbs (by simpa using hc)
      (by rw [hs]; simp only [AMCLCD_Model_AMC1602]; omega)
      (by rw [hs, hr]; decide) hfit
  have hra : s.model.getRowAddress s.row = 0 := by rw [hs, hr]; rfl
  simp only [hra, Nat.zero_add] at rsent
  refine ⟨rsent, by simpa using rcol, by rw [rrow, hr], by rw [rwrap, hw], ?_, ?_, ?_⟩ <;>
    decide

/-- Witness for C8: the bytes `ABC` on a fresh 16x2 driver. -/
theorem C8_first_row_1602_witness :
    (lcd1602.writeBytes [65, 66, 67]).wire.sent = lcd1602.wire.sent ++
      ([65, 66, 67] : List Nat).enum.flatMap (fun p =>
        [{ addr := lcd1602.addr, bytes := [0x00, 0x80 ||| p.1] },
         { addr := lcd1602.addr, bytes := [0x40, p.2] }]) ∧
    (lcd1602.writeBytes [65, 66, 67]).col = (([65, 66, 67] : List Nat).length : Int) ∧
    (lcd1602.writeBytes [65, 66, 67]).row = 0 ∧
    (lcd1602.writeBytes [65, 66, 67]).wrap = true ∧
    (lcd1602.writeBytes helloWorld).wire.sent =
      [{ addr := 0x3C, bytes := [0x00, 0x80] }, { addr := 0x3C, bytes := [0x40, 72] },
       { addr := 0x3C, bytes := [0x00, 0x81] }, { addr := 0x3C, bytes := [0x40, 69] },
       { addr := 0x3C, bytes := [0x00, 0x82] }, { addr := 0x3C, bytes := [0x40, 76] },
       { addr := 0x3C, bytes := [0x00, 0x83] }, { addr := 0x3C, bytes := [0x40, 76] },
       { addr := 0x3C, bytes := [0x00, 0x84] }, { addr := 0x3C, bytes := [0x40, 79] },
       { addr := 0x3C, bytes := [0x00, 0x85] }, { addr := 0x3C, bytes := [0x40, 32] },
       { addr := 0x3C, bytes := [0x00, 0x86] }, { addr := 0x3C, bytes := [0x40, 87] },
       { addr := 0x3C, bytes := [0x00, 0x87] }, { addr := 0x3C, bytes := [0x40, 79] },
       { addr := 0x3C, bytes := [0x00, 0x88] }, { addr := 0x3C, bytes := [0x40, 82] },
       { addr := 0x3C, bytes := [0x00, 0x89] }, { addr := 0x3C, bytes := [0x40, 76] },
       { addr := 0x3C, bytes := [0x00, 0x8A] }, { addr := 0x3C, bytes := [0x40, 68] },
       { addr := 0x3C, bytes := [0x00, 0x8B] }, { addr := 0x3C, bytes := [0x40, 33] }] ∧
    (lcd1602.writeBytes helloWorld).col = 12 ∧ (lcd1602.writeBytes helloWorld).row = 0 :=
  C8_first_row_1602 lcd1602 [65, 66, 67] rfl rfl rfl rfl (by decide) (by decide)

/-- C9: on the 20x4 model with wrap on, after `setPosition(19, 0)`, two bytes
other than CR and LF: the first goes out with the set-address instruction
`0x80 | 0x13` and leaves the cursor at (20, 0); the second goes out with
`0x80 | 0x40` (row 1, column 0) and leaves the cursor at (1, 1). -/
theorem C9_wrap_2004 (s : AMCLCD) (b1 b2 : Nat)
    (hs : s.model = AMCLCD_Model_AMC2004) (hw : s.wrap = true)
    (h1cr : b1 ≠ 13) (h1lf : b1 ≠ 10) (h2cr : b2 ≠ 13) (h2lf : b2 ≠ 10) :
    (((s.setPosition 19 0).write b1).2.wire.sent = s.wire.sent ++
      [{ addr := s.addr, bytes := [0x00, 0x80 ||| 0x13] },
       { addr := s.addr, bytes := [0x40, b1] }]) ∧
    ((s.setPosition 19 0).write b1).2.col = 20 ∧
    ((s.setPosition 19 0).write b1).2.row = 0 ∧
    ((((s.setPosition 19 0).write b1).2.write b2).2.wire.sent = s.wire.sent ++
      [{ addr := s.addr, bytes := [0x00, 0x80 ||| 0x13] },
       { addr := s.addr, bytes := [0x40, b1] },
       { addr := s.addr, bytes := [0x00, 0x80 ||| 0x40] },
       { addr := s.addr, bytes := [0x40, b2] }]) ∧
    (((s.setPosition 19 0).write b1).2.write b2).2.col = 1 ∧
    (((s.setPosition 19 0).write b1).2.write b2).2.row = 1 := by
  have hm : (s.setPosition 19 0).model = AMCLCD_Model_AMC2004 := hs
  obtain ⟨-, asent, acol, arow, awrap, amodel, aaddr⟩ :=
    write_inside (s.setPosition 19 0) b1 h1cr h1lf
      (by rw [hm]; show (19 : Int) < 20; decide) (by rw [hm]; show (0 : Int) < 4; decide)
  have ha : (0x80 ||| toUInt8 (((s.setPosition 19 0).model.getRowAddress
      (s.setPosition 19 0).row : Int) + (s.setPosition 19 0).col)) % 256 = 0x80 ||| 0x13 := by
    rw [hm]
    show (0x80 ||| toUInt8 ((AMCLCD_Model_AMC2004.getRowAddress 0 : Int) + 19)) % 256
      = 0x80 ||| 0x13
    decide
  rw [ha] at asent
  have acol20 : ((s.setPosition 19 0).write b1).2.col = 20 := by rw [acol]; rfl
  have arow0 : ((s.setPosition 19 0).write b1).2.row = 0 := by rw [arow]; rfl
  have amodel4 : ((s.setPosition 19 0).write b1).2.model = AMCLCD_Model_AMC2004 := by
    rw [amodel, hm]
  obtain ⟨-, bsent, bcol, brow, -, -, -⟩ :=
    write_wrap_inside ((s.setPosition 19 0).write b1).2 b2 h2cr h2lf
      (by rw [awrap]; exact hw) (by rw [amodel4, acol20]; decide)
      (by rw [amodel4]; decide) (by rw [amodel4, arow0]; decide)
  have hb : (0x80 ||| toUInt8 (((s.setPosition 19 0).write b1).2.model.getRowAddress
      (((s.setPosition 19 0).write b1).2.row + 1))) % 256 = 0x80 ||| 0x40 := by
    rw [amodel4, arow0]; decide
  rw [hb, asent, aaddr] at bsent
  refine ⟨asent, acol20, arow0, ?_, bcol, by rw [brow, arow0]; rfl⟩
  rw [bsent]
  simp [AMCLCD.setPosition]

/-- Witness for C9: a fresh 20x4 driver and the bytes `A`, `B`. -/
theorem C9_wrap_2004_witness :
    (((lcd2004.setPosition 19 0).write 65).2.wire.sent = lcd2004.wire.sent ++
      [{ addr := lcd2004.addr, bytes := [0x00, 0x80 ||| 0x13] },
       { addr := lcd2004.addr, bytes := [0x40, 65] }]) ∧
    ((lcd2004.setPosition 19 0).write 65).2.col = 20 ∧
    ((lcd2004.setPosition 19 0).write 65).2.row = 0 ∧
    ((((lcd2004.setPosition 19 0).write 65).2.write 66).2.wire.sent = lcd2004.wire.sent ++
      [{ addr := lcd2004.addr, bytes := [0x00, 0x80 ||| 0x13] },
       { addr := lcd2004.addr, bytes := [0x40, 65] },
       { addr := lcd2004.addr, bytes := [0x00, 0x80 ||| 0x40] },
       { addr := lcd2004.addr, bytes := [0x40, 66] }]) ∧
    (((lcd2004.setPosition 19 0).write 65).2.write 66).2.col = 1 ∧
    (((lcd2004.setPosition 19 0).write 65).2.write 66).2.row = 1 :=
  C9_wrap_2004 lcd2004 65 66 rfl rfl (by decide) (by decide) (by decide) (by decide)

/-- C10: for every model and every status the bus reports, `begin()` sends
exactly four instruction frames, in this order: `[0x00, 0x20 | getConfig()]`,
`[0x00, 0x0C]`, `[0x00, 0x01]`, `[0x00, 0x06]`; it returns true and leaves
`col`, `row` and `wrap` as they were.  The first payload is `0x38` on each of
the four built-in models. -/
theorem C10_begin_sequence (s : AMCLCD) :
    s.begin.2.wire.sent = s.wire.sent ++
      [{ addr := s.addr, bytes := [0x00, 0x20 ||| s.model.getConfig] },
       { addr := s.addr, bytes := [0x00, 0x0C] },
       { addr := s.addr, bytes := [0x00, 0x01] },
       { addr := s.addr, bytes := [0x00, 0x06] }] ∧
    s.begin.1 = true ∧
    s.begin.2.col = s.col ∧ s.begin.2.row = s.row ∧ s.begin.2.wrap = s.wrap ∧
    0x20 ||| AMCLCD_Model_AMC1602.getConfig = 0x38 ∧
    0x20 ||| AMCLCD_Model_AMC2002.getConfig = 0x38 ∧
    0x20 ||| AMCLCD_Model_AMC2004.getConfig = 0x38 ∧
    0x20 ||| AMCLCD_Model_AMC0802.getConfig = 0x38 := by
  have hcfg : (INST_FUNCTION_SET ||| s.model.getConfig) % 256 = 0x20 ||| s.model.getConfig :=
    or_mod_256 _ _ (by decide) s.model.getConfig_lt
  refine ⟨?_, rfl, rfl, rfl, rfl, by decide, by decide, by decide, by decide⟩
  simp only [AMCLCD.begin, AMCLCD.writeInst, writeDevice_sent, writeDevice_addr,
    writeDevice_model, hcfg]
  simp [TwoWire.begin, INST_DISPLAY_ON_OFF, BIT_DISPLAY_ON, INST_CLEAR_DISPLAY,
    INST_ENTRY_MODE_SET, BIT_CURSOR_INCREMENT]

/-- C11: from every driver state and for every status the bus reports,
`clearDisplay()` sends exactly the frames `[0x00, 0x80]`, `[0x40, 0x20]`,
`[0x00, 0x01]` in this order and leaves `col`, `row` and `wrap` as they were;
the cursor is not reset to (0, 0). -/
theorem C11_clearDisplay_frames (s : AMCLCD) :
    s.clearDisplay.wire.sent = s.wire.sent ++
      [{ addr := s.addr, bytes := [0x00, 0x80] },
       { addr := s.addr, bytes := [0x40, 0x20] },
       { addr := s.addr, bytes := [0x00, 0x01] }] ∧
    s.clearDisplay.col = s.col ∧ s.clearDisplay.row = s.row ∧
    s.clearDisplay.wrap = s.wrap := by
  refine ⟨?_, rfl, rfl, rfl⟩
  simp [AMCLCD.clearDisplay, AMCLCD.writeInst, AMCLCD.writeData, INST_SET_DDRAM_ADDR,
    INST_CLEAR_DISPLAY]

/-- C12: `writeInst(v)` performs exactly one bus transaction, with the bytes
`[0x00, v]`, and `writeData(v)` exactly one, with the bytes `[0x40, v]`; each
returns true exactly when the status that `endTransmission` reports for that
transaction is 0; neither changes `col`, `row` or `wrap`. -/
theorem C12_writeInst_writeData (s : AMCLCD) (v : Nat) :
    (s.writeInst v).2.wire.sent = s.wire.sent ++ [{ addr := s.addr, bytes := [0x00, v] }] ∧
    (s.writeData v).2.wire.sent = s.wire.sent ++ [{ addr := s.addr, bytes := [0x40, v] }] ∧
    ((s.writeInst v).1 = true ↔ s.wire.status s.wire.sent.length = 0) ∧
    ((s.writeData v).1 = true ↔ s.wire.status s.wire.sent.length = 0) ∧
    (s.writeInst v).2.col = s.col ∧ (s.writeInst v).2.row = s.row ∧
    (s.writeInst v).2.wrap = s.wrap ∧
    (s.writeData v).2.col = s.col ∧ (s.writeData v).2.row = s.row ∧
    (s.writeData v).2.wrap = s.wrap := by
  refine ⟨writeDevice_sent s 0x00 v, writeDevice_sent s 0x40 v, ?_, ?_, rfl, rfl, rfl, rfl,
    rfl, rfl⟩ <;>
  simp [AMCLCD.writeInst, AMCLCD.writeData, AMCLCD.writeDevice, TwoWire.endTransmission,
    TwoWire.write, TwoWire.beginTransmission]

/-- The value returned by `write` is 1 on every path. -/
theorem write_returns_one (s : AMCLCD) (b : Nat) : (s.write b).1 = 1 := by
  simp only [AMCLCD.write]
  split_ifs <;> rfl

/-- Apart from the status oracle itself, the result of `write` does not depend
on the statuses the bus reports. -/
theorem write_withStatus (s : AMCLCD) (st : Nat → Int) (b : Nat) :
    ((s.withStatus st).write b).2.col = (s.write b).2.col ∧
    ((s.withStatus st).write b).2.row = (s.write b).2.row ∧
    ((s.withStatus st).write b).2.wrap = (s.write b).2.wrap ∧
    ((s.withStatus st).write b).2.wire.sent = (s.write b).2.wire.sent := by
  unfold AMCLCD.write
  by_cases h13 : b = 13
  · simp [h13, AMCLCD.withStatus]
  · by_cases h10 : b = 10
    · simp [h10, AMCLCD.withStatus]
    · simp only [h13, h10, if_false]
      cases hw : s.wrap <;> by_cases hc : s.col ≥ s.model.getCols <;>
        simp only [AMCLCD.withStatus, hw, hc, if_true, if_false, Bool.false_eq_true] <;>
        split_ifs <;>
        simp [AMCLCD.writeInst, AMCLCD.writeData, hw]

/-- C13: from every driver state, for every byte (CR, LF and dropped characters
included) and for every assignment `st` of statuses to the bus transactions,
`write` returns 1, and the resulting `col`, `row`, `wrap` and the sequence of
frames attempted are those obtained when every transaction succeeds (status 0
throughout). -/
theorem C13_write_ignores_bus_status (s : AMCLCD) (b : Nat) (st : Nat → Int) :
    ((s.withStatus st).write b).1 = 1 ∧
    ((s.withStatus st).write b).2.col = ((s.withStatus (fun _ => 0)).write b).2.col ∧
    ((s.withStatus st).write b).2.row = ((s.withStatus (fun _ => 0)).write b).2.row ∧
    ((s.withStatus st).write b).2.wrap = ((s.withStatus (fun _ => 0)).write b).2.wrap ∧
    ((s.withStatus st).write b).2.wire.sent
      = ((s.withStatus (fun _ => 0)).write b).2.wire.sent := by
  obtain ⟨a1, a2, a3, a4⟩ := write_withStatus s st b
  obtain ⟨z1, z2, z3, z4⟩ := write_withStatus s (fun _ => 0) b
  exact ⟨write_returns_one _ b, a1.trans z1.symm, a2.trans z2.symm, a3.trans z3.symm,
    a4.trans z4.symm⟩

/-- C14: for all integers `c` and `r`, `setPosition(c, r)` makes `getCol()`
equal to `c` and `getRow()` equal to `r`, leaves `wrap` as it was and sends
nothing; for every boolean `w`, `setWrap(w)` makes `getWrap()` equal to `w`,
leaves `col` and `row` as they were and sends nothing; a freshly constructed
driver has the cursor at (0, 0) and wrap enabled. -/
theorem C14_setPosition_setWrap_fresh (s : AMCLCD) (c r : Int) (w : Bool)
    (model : AMCLCD_Model) (k : Nat) (bus : TwoWire) :
    (s.setPosition c r).getCol = c ∧ (s.setPosition c r).getRow = r ∧
    (s.setPosition c r).getWrap = s.getWrap ∧
    (s.setPosition c r).wire.sent = s.wire.sent ∧
    (s.setWrap w).getWrap = w ∧
    (s.setWrap w).getCol = s.getCol ∧ (s.setWrap w).getRow = s.getRow ∧
    (s.setWrap w).wire.sent = s.wire.sent ∧
    (AMCLCD.ctor model k bus).getCol = 0 ∧ (AMCLCD.ctor model k bus).getRow = 0 ∧
    (AMCLCD.ctor model k bus).getWrap = true ∧
    (AMCLCD.ctor model k bus).wire.sent = bus.sent :=
  ⟨rfl, rfl, rfl, rfl, rfl, rfl, rfl, rfl, rfl, rfl, rfl, rfl⟩

/-- The wrap adjustment when it fires. -/
theorem afterWrap_wrapped (s : AMCLCD) (hw : s.wrap = true) (hc : s.model.getCols ≤ s.col) :
    s.afterWrap = { s with col := 0, row := s.row + 1 } := by
  simp [AMCLCD.afterWrap, hw, hc]

/-- The wrap adjustment when it does not fire. -/
theorem afterWrap_same (s : AMCLCD) (h : ¬ (s.wrap = true ∧ s.model.getCols ≤ s.col)) :
    s.afterWrap = s := by
  cases hw : s.wrap
  · simp [AMCLCD.afterWrap, hw]
  · have hc : ¬ (s.model.getCols ≤ s.col) := fun hc => h ⟨hw, hc⟩
    simp [AMCLCD.afterWrap, hw, hc]

/-- The effect of `write` on a byte that is neither CR nor LF, in terms of the
cursor after the wrap adjustment: the character is placed exactly when that
cursor passes the check `col < cols && row < rows`. -/
theorem write_afterWrap (s : AMCLCD) (b : Nat) (hcr : b ≠ 13) (hlf : b ≠ 10) :
    (s.write b).2.wire.sent =
      (if s.afterWrap.col < s.model.getCols ∧ s.afterWrap.row < s.model.getRows then
        s.wire.sent ++
          [{ addr := s.addr,
             bytes := [0x00, 0x80 ||| (((s.model.getRowAddress s.afterWrap.row : Int)
                + s.afterWrap.col) % 256).toNat] },
           { addr := s.addr, bytes := [0x40, b] }]
       else s.wire.sent) ∧
    (s.write b).2.col =
      (if s.afterWrap.col < s.model.getCols ∧ s.afterWrap.row < s.model.getRows then
        s.afterWrap.col + 1 else s.afterWrap.col) ∧
    (s.write b).2.row = s.afterWrap.row ∧ (s.write b).2.wrap = s.wrap := by
  have hbyte : ∀ x : Int, (0x80 ||| toUInt8 x) % 256 = 0x80 ||| (x % 256).toNat := fun x =>
    or_mod_256 _ _ (by decide) (toUInt8_lt x)
  by_cases hwc : s.wrap = true ∧ s.model.getCols ≤ s.col
  · rw [afterWrap_wrapped s hwc.1 hwc.2]
    by_cases hin : 0 < s.model.getCols ∧ s.row + 1 < s.model.getRows
    · obtain ⟨-, hsent, hcol, hrow, hwrap, -, -⟩ :=
        write_wrap_inside s b hcr hlf hwc.1 hwc.2 hin.1 hin.2
      rw [hbyte] at hsent
      simp only [if_pos hin, add_zero, zero_add]
      exact ⟨hsent, hcol, hrow, hwrap⟩
    · rw [write_wrap_outside s b hcr hlf hwc.1 hwc.2 hin]
      simp [hin]
  · rw [afterWrap_same s hwc]
    have hnw : s.wrap = false ∨ s.col < s.model.getCols := by
      cases hw : s.wrap
      · exact Or.inl rfl
      · right
        by_contra hh
        exact hwc ⟨hw, not_lt.mp hh⟩
    by_cases hin : s.col < s.model.getCols ∧ s.row < s.model.getRows
    · obtain ⟨-, hsent, hcol, hrow, hwrap, -, -⟩ := write_inside s b hcr hlf hin.1 hin.2
      rw [hbyte] at hsent
      simp only [if_pos hin]
      exact ⟨hsent, hcol, hrow, hwrap⟩
    · rw [write_outside s b hcr hlf hnw hin]
      simp [hin]

/-- C15 (as amended): on every built-in model, from every cursor position,
negative values included, whose row is below `INT_MAX` (so that `row++` cannot
overflow), and for every byte other than CR and LF, `write` sends bus
transactions exactly when the cursor after the wrap adjustment passes the check
`col < cols` and `row < rows`; only these upper bounds are checked.  When after
the wrap adjustment `col >= cols` or `row >= rows`, the character is dropped:
nothing is sent and the cursor stays where the wrap adjustment left it.  When
the check passes, the frames are `[0x00, 0x80 | ((getRowAddress(row) + col) mod
256)]` and `[0x40, b]` and `col` grows by one. -/
theorem C15_write_bounds_check (m : AMCLCD_Model) (hm : m ∈ builtinModels) (s : AMCLCD)
    (hs : s.model = m) (hov : s.row < INT_MAX) (b : Nat) (hcr : b ≠ 13) (hlf : b ≠ 10) :
    ((s.write b).2.wire.sent ≠ s.wire.sent ↔
      (s.afterWrap.col < m.getCols ∧ s.afterWrap.row < m.getRows)) ∧
    (s.write b).2.wire.sent =
      (if s.afterWrap.col < m.getCols ∧ s.afterWrap.row < m.getRows then
        s.wire.sent ++
          [{ addr := s.addr,
             bytes := [0x00, 0x80 ||| (((m.getRowAddress s.afterWrap.row : Int)
                + s.afterWrap.col) % 256).toNat] },
           { addr := s.addr, bytes := [0x40, b] }]
       else s.wire.sent) ∧
    (s.write b).2.col =
      (if s.afterWrap.col < m.getCols ∧ s.afterWrap.row < m.getRows then
        s.afterWrap.col + 1 else s.afterWrap.col) ∧
    (s.write b).2.row = s.afterWrap.row ∧
    s.afterWrap.row ≤ INT_MAX := by
  subst hs
  obtain ⟨hsent, hcol, hrow, -⟩ := write_afterWrap s b hcr hlf
  refine ⟨?_, hsent, hcol, hrow, ?_⟩
  · rw [hsent]
    by_cases hin : s.afterWrap.col < s.model.getCols ∧ s.afterWrap.row < s.model.getRows
    · simp [if_pos hin, hin]
    · simp [if_neg hin, hin]
  · by_cases hwc : s.wrap = true ∧ s.model.getCols ≤ s.col
    · rw [afterWrap_wrapped s hwc.1 hwc.2]
      exact Int.add_one_le_of_lt hov
    · rw [afterWrap_same s hwc]
      exact le_of_lt hov

/-- Witness for C15: the 16x2 driver with the cursor at (-1, 0). -/
theorem C15_write_bounds_check_witness :
    (((lcd1602.setPosition (-1) 0).write 65).2.wire.sent ≠ (lcd1602.setPosition (-1) 0).wire.sent ↔
      ((lcd1602.setPosition (-1) 0).afterWrap.col < AMCLCD_Model_AMC1602.getCols ∧
       (lcd1602.setPosition (-1) 0).afterWrap.row < AMCLCD_Model_AMC1602.getRows)) ∧
    ((lcd1602.setPosition (-1) 0).write 65).2.wire.sent =
      (if (lcd1602.setPosition (-1) 0).afterWrap.col < AMCLCD_Model_AMC1602.getCols ∧
          (lcd1602.setPosition (-1) 0).afterWrap.row < AMCLCD_Model_AMC1602.getRows then
        (lcd1602.setPosition (-1) 0).wire.sent ++
          [{ addr := (lcd1602.setPosition (-1) 0).addr,
             bytes := [0x00, 0x80 ||| (((AMCLCD_Model_AMC1602.getRowAddress
                (lcd1602.setPosition (-1) 0).afterWrap.row : Int)
                + (lcd1602.setPosition (-1) 0).afterWrap.col) % 256).toNat] },
           { addr := (lcd1602.setPosition (-1) 0).addr, bytes := [0x40, 65] }]
       else (lcd1602.setPosition (-1) 0).wire.sent) ∧
    ((lcd1602.setPosition (-1) 0).write 65).2.col =
      (if (lcd1602.setPosition (-1) 0).afterWrap.col < AMCLCD_Model_AMC1602.getCols ∧
          (lcd1602.setPosition (-1) 0).afterWrap.row < AMCLCD_Model_AMC1602.getRows then
        (lcd1602.setPosition (-1) 0).afterWrap.col + 1
       else (lcd1602.setPosition (-1) 0).afterWrap.col) ∧
    ((lcd1602.setPosition (-1) 0).write 65).2.row = (lcd1602.setPosition (-1) 0).afterWrap.row ∧
    (lcd1602.setPosition (-1) 0).afterWrap.row ≤ INT_MAX :=
  C15_write_bounds_check AMCLCD_Model_AMC1602 (by simp [builtinModels])
    (lcd1602.setPosition (-1) 0) rfl (by decide) 65 (by decide) (by decide)

/-- Counterexample to C15 as stated: on the 16x2 driver, after
`setPosition(-1, 0)` the cursor after the wrap adjustment is (-1, 0), left of
the visible area, yet `write(65)` sends the frames `[0x00, 0xFF]` and
`[0x40, 65]` and moves the cursor to (0, 0); after `setPosition(0, -1)` the
cursor after the wrap adjustment is (0, -1), above the visible area, yet
`write(65)` sends `[0x00, 0xC0]` and `[0x40, 65]`. -/
theorem C15_counterexample :
    (lcd1602.setPosition (-1) 0).afterWrap.col = -1 ∧
    (lcd1602.setPosition (-1) 0).afterWrap.row = 0 ∧
    ¬ (0 ≤ (lcd1602.setPosition (-1) 0).afterWrap.col) ∧
    (lcd1602.setPosition (-1) 0).wire.sent = [] ∧
    ((lcd1602.setPosition (-1) 0).write 65).2.wire.sent =
      [{ addr := 0x3C, bytes := [0x00, 0xFF] }, { addr := 0x3C, bytes := [0x40, 65] }] ∧
    ((lcd1602.setPosition (-1) 0).write 65).2.col = 0 ∧
    ((lcd1602.setPosition (-1) 0).write 65).2.row = 0 ∧
    (lcd1602.setPosition 0 (-1)).afterWrap.col = 0 ∧
    (lcd1602.setPosition 0 (-1)).afterWrap.row = -1 ∧
    ¬ (0 ≤ (lcd1602.setPosition 0 (-1)).afterWrap.row) ∧
    (lcd1602.setPosition 0 (-1)).wire.sent = [] ∧
    ((lcd1602.setPosition 0 (-1)).write 65).2.wire.sent =
      [{ addr := 0x3C, bytes := [0x00, 0xC0] }, { addr := 0x3C, bytes := [0x40, 65] }] ∧
    ((lcd1602.setPosition 0 (-1)).write 65).2.col = 1 ∧
    ((lcd1602.setPosition 0 (-1)).write 65).2.row = -1 := by
  decide

/-- Or-ing `0x80` into a value below 128 sets bit 7 and keeps the low seven
bits. -/
theorem setAddr_bits : ∀ x : Nat, x < 128 →
    Nat.testBit (0x80 ||| x) 7 = true ∧ (0x80 ||| x) % 128 = x ∧ 0x80 ||| x < 256 := by
  decide

/-- C16: on each of the four built-in models, for every position inside the
visible area, `getRowAddress(row) + col` is at most `0x67`; the cast to
`uint8_t` in `write` leaves it as it is, and the instruction byte that `write`
sends, `0x80 | (getRowAddress(row) + col)`, has bit 7 set and the address in
its low seven bits. -/
theorem C16_address_fits_seven_bits (m : AMCLCD_Model) (hm : m ∈ builtinModels)
    (s : AMCLCD) (hs : s.model = m)
    (hc0 : 0 ≤ s.col) (hc : s.col < m.getCols) (hr0 : 0 ≤ s.row) (hr : s.row < m.getRows)
    (b : Nat) (hcr : b ≠ 13) (hlf : b ≠ 10) :
    (m.getRowAddress s.row : Int) + s.col ≤ 0x67 ∧
    (toUInt8 ((m.getRowAddress s.row : Int) + s.col) : Int)
      = (m.getRowAddress s.row : Int) + s.col ∧
    (s.write b).2.wire.sent = s.wire.sent ++
      [{ addr := s.addr, bytes := [0x00, 0x80 ||| (m.getRowAddress s.row + s.col.toNat)] },
       { addr := s.addr, bytes := [0x40, b] }] ∧
    Nat.testBit (0x80 ||| (m.getRowAddress s.row + s.col.toNat)) 7 = true ∧
    (0x80 ||| (m.getRowAddress s.row + s.col.toNat)) % 128
      = m.getRowAddress s.row + s.col.toNat := by
  subst hs
  have hcn : ((s.col.toNat : Nat) : Int) = s.col := Int.toNat_of_nonneg hc0
  have hle := builtin_addr_le s.model hm s.row s.col.toNat hr (by rw [hcn]; exact hc)
  have hbits := setAddr_bits (s.model.getRowAddress s.row + s.col.toNat) (by omega)
  have hbyte := setAddr_byte (s.model.getRowAddress s.row) s.col.toNat (by omega)
  rw [hcn] at hbyte
  obtain ⟨-, hsent, -, -, -, -, -⟩ := write_inside s b hcr hlf hc hr
  rw [hbyte] at hsent
  refine ⟨by omega, ?_, hsent, hbits.1, hbits.2.1⟩
  rw [toUInt8_of_lt _ (by omega) (by omega)]
  omega

/-- Witness for C16: the 20x4 driver with the cursor at (19, 3), the cell with
the highest address. -/
theorem C16_address_fits_seven_bits_witness :
    (AMCLCD_Model_AMC2004.getRowAddress (lcd2004.setPosition 19 3).row : Int)
      + (lcd2004.setPosition 19 3).col ≤ 0x67 ∧
    (toUInt8 ((AMCLCD_Model_AMC2004.getRowAddress (lcd2004.setPosition 19 3).row : Int)
      + (lcd2004.setPosition 19 3).col) : Int)
      = (AMCLCD_Model_AMC2004.getRowAddress (lcd2004.setPosition 19 3).row : Int)
        + (lcd2004.setPosition 19 3).col ∧
    ((lcd2004.setPosition 19 3).write 65).2.wire.sent = (lcd2004.setPosition 19 3).wire.sent ++
      [{ addr := (lcd2004.setPosition 19 3).addr,
         bytes := [0x00, 0x80 ||| (AMCLCD_Model_AMC2004.getRowAddress
            (lcd2004.setPosition 19 3).row + (lcd2004.setPosition 19 3).col.toNat)] },
       { addr := (lcd2004.setPosition 19 3).addr, bytes := [0x40, 65] }] ∧
    Nat.testBit (0x80 ||| (AMCLCD_Model_AMC2004.getRowAddress (lcd2004.setPosition 19 3).row
      + (lcd2004.setPosition 19 3).col.toNat)) 7 = true ∧
    (0x80 ||| (AMCLCD_Model_AMC2004.getRowAddress (lcd2004.setPosition 19 3).row
      + (lcd2004.setPosition 19 3).col.toNat)) % 128
      = AMCLCD_Model_AMC2004.getRowAddress (lcd2004.setPosition 19 3).row
        + (lcd2004.setPosition 19 3).col.toNat :=
  C16_address_fits_seven_bits AMCLCD_Model_AMC2004 (by simp [builtinModels])
    (lcd2004.setPosition 19 3) rfl (by decide) (by decide) (by decide) (by decide) 65
    (by decide) (by decide)

/-- What every call of `write` has in common: the bus address and the model
stay, `row` does not decrease, and the frames sent (none or two) are two-byte
frames to the bus address; none is sent when `row` is at or beyond the row
count. -/
theorem write_shape (s : AMCLCD) (b : Nat) :
    (s.write b).2.addr = s.addr ∧ (s.write b).2.model = s.model ∧
    s.row ≤ (s.write b).2.row ∧
    ∃ new, (s.write b).2.wire.sent = s.wire.sent ++ new ∧
      (∀ t ∈ new, t.addr = s.addr ∧ t.bytes.length = 2) ∧
      (s.model.getRows ≤ s.row → new = []) := by
  by_cases h13 : b = 13
  · refine ⟨by simp [AMCLCD.write, h13], by simp [AMCLCD.write, h13],
      by simp [AMCLCD.write, h13], [], by simp [AMCLCD.write, h13], by simp, fun _ => rfl⟩
  by_cases h10 : b = 10
  · refine ⟨by simp [AMCLCD.write, h10], by simp [AMCLCD.write, h10],
      by simp [AMCLCD.write, h10], [], by simp [AMCLCD.write, h10], by simp, fun _ => rfl⟩
  by_cases hwc : s.wrap = true ∧ s.model.getCols ≤ s.col
  · by_cases hin : 0 < s.model.getCols ∧ s.row + 1 < s.model.getRows
    · obtain ⟨-, hsent, -, hrow, -, hmodel, haddr⟩ :=
        write_wrap_inside s b h13 h10 hwc.1 hwc.2 hin.1 hin.2
      refine ⟨haddr, hmodel, by omega, _, hsent, ?_, fun h => by omega⟩
      intro t ht
      simp only [List.mem_cons, List.mem_singleton, List.not_mem_nil, or_false] at ht
      rcases ht with rfl | rfl <;> exact ⟨rfl, rfl⟩
    · rw [write_wrap_outside s b h13 h10 hwc.1 hwc.2 hin]
      exact ⟨rfl, rfl, by simp, [], by simp, by simp, fun _ => rfl⟩
  · have hnw : s.wrap = false ∨ s.col < s.model.getCols := by
      cases hw : s.wrap
      · exact Or.inl rfl
      · right
        by_contra hh
        exact hwc ⟨hw, not_lt.mp hh⟩
    by_cases hin : s.col < s.model.getCols ∧ s.row < s.model.getRows
    · obtain ⟨-, hsent, -, hrow, -, hmodel, haddr⟩ := write_inside s b h13 h10 hin.1 hin.2
      refine ⟨haddr, hmodel, by omega, _, hsent, ?_, fun h => by omega⟩
      intro t ht
      simp only [List.mem_cons, List.mem_singleton, List.not_mem_nil, or_false] at ht
      rcases ht with rfl | rfl <;> exact ⟨rfl, rfl⟩
    · rw [write_outside s b h13 h10 hnw hin]
      exact ⟨rfl, rfl, le_refl _, [], by simp, by simp, fun _ => rfl⟩

/-- One public call keeps the bus address and sends only two-byte frames to
it. -/
theorem step_shape (s : AMCLCD) (o : Op) :
    (s.step o).addr = s.addr ∧
    ∃ new, (s.step o).wire.sent = s.wire.sent ++ new ∧
      ∀ t ∈ new, t.addr = s.addr ∧ t.bytes.length = 2 := by
  cases o with
  | begin =>
    refine ⟨rfl,
      [{ addr := s.addr, bytes := [0x00, (INST_FUNCTION_SET ||| s.model.getConfig) % 256] },
       { addr := s.addr, bytes := [0x00, (INST_DISPLAY_ON_OFF ||| BIT_DISPLAY_ON) % 256] },
       { addr := s.addr, bytes := [0x00, INST_CLEAR_DISPLAY] },
       { addr := s.addr,
         bytes := [0x00, (INST_ENTRY_MODE_SET ||| BIT_CURSOR_INCREMENT) % 256] }], ?_, ?_⟩
    · simp [AMCLCD.step, AMCLCD.begin, AMCLCD.writeInst, TwoWire.begin]
    · intro t ht
      simp only [List.mem_cons, List.mem_singleton, List.not_mem_nil, or_false] at ht
      rcases ht with rfl | rfl | rfl | rfl <;> exact ⟨rfl, rfl⟩
  | write b =>
    obtain ⟨haddr, -, -, new, hsent, hall, -⟩ := write_shape s b
    exact ⟨haddr, new, hsent, hall⟩
  | setPosition col row => exact ⟨rfl, [], by simp [AMCLCD.step, AMCLCD.setPosition], by simp⟩
  | setWrap wrap => exact ⟨rfl, [], by simp [AMCLCD.step, AMCLCD.setWrap], by simp⟩
  | clearDisplay =>
    refine ⟨rfl,
      [{ addr := s.addr, bytes := [0x00, INST_SET_DDRAM_ADDR] },
       { addr := s.addr, bytes := [0x40, 32] },
       { addr := s.addr, bytes := [0x00, INST_CLEAR_DISPLAY] }], ?_, ?_⟩
    · simp [AMCLCD.step, AMCLCD.clearDisplay, AMCLCD.writeInst, AMCLCD.writeData]
    · intro t ht
      simp only [List.mem_cons, List.mem_singleton, List.not_mem_nil, or_false] at ht
      rcases ht with rfl | rfl | rfl <;> exact ⟨rfl, rfl⟩
  | writeInst value =>
    refine ⟨rfl, _, writeDevice_sent s 0x00 value, ?_⟩
    intro t ht
    simp only [List.mem_singleton] at ht
    subst ht
    exact ⟨rfl, rfl⟩
  | writeData data =>
    refine ⟨rfl, _, writeDevice_sent s 0x40 data, ?_⟩
    intro t ht
    simp only [List.mem_singleton] at ht
    subst ht
    exact ⟨rfl, rfl⟩

/-- C17: over every sequence of public calls (`begin`, `write`, `setPosition`,
`setWrap`, `clearDisplay`, `writeInst`, `writeData`), from every driver state
and so from the state the constructor leaves, the `addr` member keeps its
value, and every bus transaction sent during the sequence is a two-byte frame
to that address. -/
theorem C17_bus_address_is_immutable (s : AMCLCD) (ops : List Op) :
    (s.run ops).addr = s.addr ∧
    ∃ new, (s.run ops).wire.sent = s.wire.sent ++ new ∧
      ∀ t ∈ new, t.addr = s.addr ∧ t.bytes.length = 2 := by
  induction ops generalizing s with
  | nil => exact ⟨rfl, [], by simp [AMCLCD.run], by simp⟩
  | cons o os ih =>
    obtain ⟨haddr, new1, hsent1, hall1⟩ := step_shape s o
    obtain ⟨iaddr, new2, hsent2, hall2⟩ := ih (s.step o)
    refine ⟨by simp only [AMCLCD.run, iaddr, haddr], new1 ++ new2, ?_, ?_⟩
    · simp only [AMCLCD.run, hsent2, hsent1, List.append_assoc]
    · intro t ht
      rcases List.mem_append.mp ht with h | h
      · exact hall1 t h
      · have := hall2 t h
        rw [haddr] at this
        exact this

/-- One `write` or `setWrap` call keeps the model, does not decrease `row`,
and sends nothing when `row` is at or beyond the row count. -/
theorem text_step (s : AMCLCD) (o : Op) (ho : o.isWriteOrSetWrap = true) :
    (s.step o).model = s.model ∧ s.row ≤ (s.step o).row ∧
    (s.model.getRows ≤ s.row → (s.step o).wire.sent = s.wire.sent) := by
  cases o with
  | write b =>
    obtain ⟨-, hmodel, hrow, new, hsent, -, hnil⟩ := write_shape s b
    refine ⟨hmodel, hrow, fun h => ?_⟩
    show (s.write b).2.wire.sent = s.wire.sent
    rw [hsent, hnil h, List.append_nil]
  | setWrap wrap => exact ⟨rfl, le_refl _, fun _ => rfl⟩
  | begin => exact absurd ho (by decide)
  | setPosition col row => exact absurd ho (by simp [Op.isWriteOrSetWrap])
  | clearDisplay => exact absurd ho (by decide)
  | writeInst value => exact absurd ho (by simp [Op.isWriteOrSetWrap])
  | writeData data => exact absurd ho (by simp [Op.isWriteOrSetWrap])

/-- C18: over every sequence of `write` calls (any bytes, CR and LF included)
and `setWrap` calls, with the cursor taken as mathematical integers, `row`
never decreases; so, for every model, when `row >= rows` at the start of such
a sequence, nothing is sent during it. -/
theorem C18_row_never_decreases (s : AMCLCD) (ops : List Op)
    (hops : ∀ o ∈ ops, o.isWriteOrSetWrap = true) :
    s.row ≤ (s.run ops).row ∧
    (s.model.getRows ≤ s.row → (s.run ops).wire.sent = s.wire.sent) := by
  induction ops generalizing s with
  | nil => exact ⟨le_refl _, fun _ => rfl⟩
  | cons o os ih =>
    obtain ⟨hmodel, hrow, hsent⟩ := text_step s o (hops o (List.mem_cons_self o os))
    obtain ⟨irow, isent⟩ := ih (s.step o) (fun x hx => hops x (List.mem_cons_of_mem o hx))
    refine ⟨le_trans hrow irow, fun h => ?_⟩
    show ((s.step o).run os).wire.sent = s.wire.sent
    rw [isent (by rw [hmodel]; exact le_trans h hrow), hsent h]

/-- Witness for C18: the 16x2 driver with the cursor at (16, 2), then
`write(65)`, `setWrap(false)`, `write(13)`, `write(10)`, `write(66)`: the row
does not go down and nothing is sent. -/
theorem C18_row_never_decreases_witness :
    (lcd1602.setPosition 16 2).row ≤
      ((lcd1602.setPosition 16 2).run
        [Op.write 65, Op.setWrap false, Op.write 13, Op.write 10, Op.write 66]).row ∧
    ((lcd1602.setPosition 16 2).run
        [Op.write 65, Op.setWrap false, Op.write 13, Op.write 10, Op.write 66]).wire.sent
      = (lcd1602.setPosition 16 2).wire.sent :=
  ⟨(C18_row_never_decreases (lcd1602.setPosition 16 2)
      [Op.write 65, Op.setWrap false, Op.write 13, Op.write 10, Op.write 66]
      (by decide)).1,
   (C18_row_never_decreases (lcd1602.setPosition 16 2)
      [Op.write 65, Op.setWrap false, Op.write 13, Op.write 10, Op.write 66]
      (by decide)).2 (by decide)⟩

/-- C20: on each of the four built-in models the map from a visible cell to
its controller address is injective: two cells inside the visible area with
the same `getRowAddress(row) + col` are the same cell.  On the 20x4 model the
four rows occupy `0x00-0x13`, `0x40-0x53`, `0x14-0x27` and `0x54-0x67`. -/
theorem C20_cell_address_injective (m : AMCLCD_Model) (hm : m ∈ builtinModels)
    (c1 r1 c2 r2 : Int)
    (hc1 : 0 ≤ c1) (hc1' : c1 < m.getCols) (hr1 : 0 ≤ r1) (hr1' : r1 < m.getRows)
    (hc2 : 0 ≤ c2) (hc2' : c2 < m.getCols) (hr2 : 0 ≤ r2) (hr2' : r2 < m.getRows)
    (heq : (m.getRowAddress r1 : Int) + c1 = (m.getRowAddress r2 : Int) + c2) :
    (c1 = c2 ∧ r1 = r2) ∧
    AMCLCD_Model_AMC2004.getRowAddress 0 + 0 = 0x00 ∧
    AMCLCD_Model_AMC2004.getRowAddress 0 + 19 = 0x13 ∧
    AMCLCD_Model_AMC2004.getRowAddress 1 + 0 = 0x40 ∧
    AMCLCD_Model_AMC2004.getRowAddress 1 + 19 = 0x53 ∧
    AMCLCD_Model_AMC2004.getRowAddress 2 + 0 = 0x14 ∧
    AMCLCD_Model_AMC2004.getRowAddress 2 + 19 = 0x27 ∧
    AMCLCD_Model_AMC2004.getRowAddress 3 + 0 = 0x54 ∧
    AMCLCD_Model_AMC2004.getRowAddress 3 + 19 = 0x67 := by
  refine ⟨?_, rfl, rfl, rfl, rfl, rfl, rfl, rfl, rfl⟩
  simp only [builtinModels, List.mem_cons, List.mem_singleton, List.not_mem_nil, or_false] at hm
  rcases hm with rfl | rfl | rfl | rfl
  · simp only [AMCLCD_Model_AMC1602] at hc1' hr1' hc2' hr2' heq
    interval_cases r1 <;> interval_cases r2 <;> simp at heq <;> omega
  · simp only [AMCLCD_Model_AMC2002] at hc1' hr1' hc2' hr2' heq
    interval_cases r1 <;> interval_cases r2 <;> simp at heq <;> omega
  · simp only [AMCLCD_Model_AMC2004] at hc1' hr1' hc2' hr2' heq
    interval_cases r1 <;> interval_cases r2 <;> simp at heq <;> omega
  · simp only [AMCLCD_Model_AMC0802] at hc1' hr1' hc2' hr2' heq
    interval_cases r1 <;> interval_cases r2 <;> simp at heq <;> omega

/-- Witness for C20: the cell (3, 1) of the 20x4 model against itself. -/
theorem C20_cell_address_injective_witness :
    ((3 : Int) = 3 ∧ (1 : Int) = 1) ∧
    AMCLCD_Model_AMC2004.getRowAddress 0 + 0 = 0x00 ∧
    AMCLCD_Model_AMC2004.getRowAddress 0 + 19 = 0x13 ∧
    AMCLCD_Model_AMC2004.getRowAddress 1 + 0 = 0x40 ∧
    AMCLCD_Model_AMC2004.getRowAddress 1 + 19 = 0x53 ∧
    AMCLCD_Model_AMC2004.getRowAddress 2 + 0 = 0x14 ∧
    AMCLCD_Model_AMC2004.getRowAddress 2 + 19 = 0x27 ∧
    AMCLCD_Model_AMC2004.getRowAddress 3 + 0 = 0x54 ∧
    AMCLCD_Model_AMC2004.getRowAddress 3 + 19 = 0x67 :=
  C20_cell_address_injective AMCLCD_Model_AMC2004 (by simp [builtinModels]) 3 1 3 1
    (by decide) (by decide) (by decide) (by decide) (by decide) (by decide) (by decide)
    (by decide) rfl

/-- The dimensions of the four built-in models. -/
theorem builtin_dims (m : AMCLCD_Model) (hm : m ∈ builtinModels) :
    (m.getCols = 16 ∧ m.getRows = 2) ∨ (m.getCols = 20 ∧ m.getRows = 2) ∨
    (m.getCols = 20 ∧ m.getRows = 4) ∨ (m.getCols = 8 ∧ m.getRows = 2) := by
  simp only [builtinModels, List.mem_cons, List.mem_singleton, List.not_mem_nil, or_false] at hm
  rcases hm with rfl | rfl | rfl | rfl
  · exact Or.inl ⟨rfl, rfl⟩
  · exact Or.inr (Or.inl ⟨rfl, rfl⟩)
  · exact Or.inr (Or.inr (Or.inl ⟨rfl, rfl⟩))
  · exact Or.inr (Or.inr (Or.inr ⟨rfl, rfl⟩))

/-- With wrap on, on a built-in model, a character written when cell `k` is
next and `k` is a cell of the display goes to that cell, and cell `k + 1` is
next afterwards. -/
theorem cell_step (s : AMCLCD) (hm : s.model ∈ builtinModels) (k : Nat) (hat : s.atCell k)
    (hk : (k : Int) < s.model.getCols * s.model.getRows)
    (b : Nat) (hcr : b ≠ 13) (hlf : b ≠ 10) :
    (s.write b).2.wire.sent = s.wire.sent ++
      [{ addr := s.addr,
         bytes := [0x00, 0x80 ||| (s.model.getRowAddress ((k : Int) / s.model.getCols)
            + ((k : Int) % s.model.getCols).toNat)] },
       { addr := s.addr, bytes := [0x40, b] }] ∧
    (s.write b).2.atCell (k + 1) ∧
    (s.write b).2.model = s.model ∧ (s.write b).2.addr = s.addr := by
  obtain ⟨hw, hpos⟩ := hat
  have hdims := builtin_dims s.model hm
  have hcn : (((k : Int) % s.model.getCols).toNat : Int) = (k : Int) % s.model.getCols :=
    Int.toNat_of_nonneg (Int.emod_nonneg _ (by rcases hdims with h | h | h | h <;> omega))
  rcases hpos with ⟨hc, hr⟩ | ⟨hc, hr, hz⟩
  · have hcol : s.col < s.model.getCols := by
      rcases hdims with h | h | h | h <;> rw [h.1] at hc ⊢ <;> omega
    have hrow : s.row < s.model.getRows := by
      rcases hdims with h | h | h | h <;> rw [h.1] at hr <;> rw [h.1, h.2] at hk <;>
        rw [h.2] <;> omega
    obtain ⟨-, hsent, hc1, hr1, hw1, hm1, ha1⟩ := write_inside s b hcr hlf hcol hrow
    have hle := builtin_addr_le s.model hm s.row ((k : Int) % s.model.getCols).toNat hrow
      (by rw [hcn, ← hc]; exact hcol)
    have hbyte := setAddr_byte (s.model.getRowAddress s.row)
      ((k : Int) % s.model.getCols).toNat (by omega)
    rw [hcn, ← hc] at hbyte
    rw [hbyte, hr] at hsent
    rw [hc] at hsent
    refine ⟨hsent, ⟨by rw [hw1, hw], ?_⟩, hm1, ha1⟩
    rw [hc1, hr1, hm1]
    push_cast
    rcases hdims with h | h | h | h <;> rw [h.1] at hc hr ⊢ <;> omega
  · have h0 : 0 < s.model.getCols := by rcases hdims with h | h | h | h <;> omega
    have hrow : s.row + 1 < s.model.getRows := by
      rcases hdims with h | h | h | h <;> rw [h.1] at hr <;> rw [h.1, h.2] at hk <;>
        rw [h.2] <;> omega
    obtain ⟨-, hsent, hc1, hr1, hw1, hm1, ha1⟩ :=
      write_wrap_inside s b hcr hlf hw (le_of_eq hc.symm) h0 hrow
    have hbyte := setAddr_byte (s.model.getRowAddress (s.row + 1)) 0
      (by have := s.model.getRowAddress_lt (s.row + 1); omega)
    simp only [Nat.cast_zero, add_zero] at hbyte
    rw [hbyte, hr] at hsent
    have hz0 : ((k : Int) % s.model.getCols).toNat = 0 := by rw [hz]; rfl
    rw [hz0, Nat.add_zero]
    refine ⟨hsent, ⟨by rw [hw1, hw], ?_⟩, hm1, ha1⟩
    rw [hc1, hr1, hm1]
    push_cast
    rcases hdims with h | h | h | h <;> rw [h.1] at hr hz ⊢ <;> omega

/-- With wrap on, on a built-in model, a character written when the next cell
number is past the last cell of the display is dropped, and the next cell
number stays. -/
theorem cell_drop (s : AMCLCD) (hm : s.model ∈ builtinModels) (k : Nat) (hat : s.atCell k)
    (hk : s.model.getCols * s.model.getRows ≤ (k : Int))
    (b : Nat) (hcr : b ≠ 13) (hlf : b ≠ 10) :
    (s.write b).2.wire.sent = s.wire.sent ∧ (s.write b).2.atCell k ∧
    (s.write b).2.model = s.model := by
  obtain ⟨hw, hpos⟩ := hat
  have hdims := builtin_dims s.model hm
  rcases hpos with ⟨hc, hr⟩ | ⟨hc, hr, hz⟩
  · have hcol : s.col < s.model.getCols := by
      rcases hdims with h | h | h | h <;> rw [h.1] at hc ⊢ <;> omega
    have hrow : ¬ (s.col < s.model.getCols ∧ s.row < s.model.getRows) := by
      rintro ⟨-, hlt⟩
      rcases hdims with h | h | h | h <;> rw [h.1] at hr <;> rw [h.1, h.2] at hk <;>
        rw [h.2] at hlt <;> omega
    rw [write_outside s b hcr hlf (Or.inr hcol) hrow]
    exact ⟨rfl, ⟨hw, Or.inl ⟨hc, hr⟩⟩, rfl⟩
  · have hout : ¬ (0 < s.model.getCols ∧ s.row + 1 < s.model.getRows) := by
      rintro ⟨-, hlt⟩
      rcases hdims with h | h | h | h <;> rw [h.1] at hr <;> rw [h.1, h.2] at hk <;>
        rw [h.2] at hlt <;> omega
    rw [write_wrap_outside s b hcr hlf hw (le_of_eq hc.symm) hout]
    exact ⟨rfl, ⟨hw, Or.inl ⟨hz.symm, hr⟩⟩, rfl⟩

/-- Writing with wrap on, on a built-in model, a run of bytes (none CR or LF)
that ends within the display: the byte written when cell `i` is next goes to
cell `i`, in row-major order. -/
theorem writeBytes_cells (bs : List Nat) :
    ∀ (s : AMCLCD) (k : Nat), s.model ∈ builtinModels → s.atCell k →
      ((k + bs.length : Nat) : Int) ≤ s.model.getCols * s.model.getRows →
      (∀ x ∈ bs, x ≠ 13 ∧ x ≠ 10) →
      (s.writeBytes bs).wire.sent = s.wire.sent ++
        (bs.enumFrom k).flatMap (fun p =>
          [{ addr := s.addr,
             bytes := [0x00, 0x80 ||| (s.model.getRowAddress ((p.1 : Int) / s.model.getCols)
                + ((p.1 : Int) % s.model.getCols).toNat)] },
           { addr := s.addr, bytes := [0x40, p.2] }]) ∧
      (s.writeBytes bs).atCell (k + bs.length) ∧
      (s.writeBytes bs).model = s.model ∧ (s.writeBytes bs).addr = s.addr := by
  induction bs with
  | nil =>
    intro s k _ hat _ _
    exact ⟨by simp [AMCLCD.writeBytes], hat, rfl, rfl⟩
  | cons b bs ih =>
    intro s k hm hat hlen hbs
    have hb := hbs b (List.mem_cons_self b bs)
    have hk : (k : Int) < s.model.getCols * s.model.getRows := by
      simp only [List.length_cons] at hlen
      push_cast at hlen
      omega
    obtain ⟨hsent, hat1, hm1, ha1⟩ := cell_step s hm k hat hk b hb.1 hb.2
    have hlen1 : (((k + 1) + bs.length : Nat) : Int)
        ≤ (s.write b).2.model.getCols * (s.write b).2.model.getRows := by
      rw [hm1]
      simp only [List.length_cons] at hlen
      push_cast at hlen ⊢
      omega
    obtain ⟨isent, iat, im, ia⟩ := ih (s.write b).2 (k + 1) (by rw [hm1]; exact hm) hat1 hlen1
      (fun x hx => hbs x (List.mem_cons_of_mem b hx))
    refine ⟨?_, ?_, ?_, ?_⟩
    · simp only [AMCLCD.writeBytes, isent, hsent, hm1, ha1, List.enumFrom_cons,
        List.flatMap_cons]
      simp
    · have hidx : k + (b :: bs).length = (k + 1) + bs.length := by
        simp only [List.length_cons]; omega
      rw [hidx]
      exact iat
    · simp only [AMCLCD.writeBytes, im, hm1]
    · simp only [AMCLCD.writeBytes, ia, ha1]

/-- Writing with wrap on, on a built-in model, bytes (none CR or LF) when the
next cell number is past the last cell: nothing is sent. -/
theorem writeBytes_dropped (bs : List Nat) :
    ∀ (s : AMCLCD) (k : Nat), s.model ∈ builtinModels → s.atCell k →
      s.model.getCols * s.model.getRows ≤ (k : Int) →
      (∀ x ∈ bs, x ≠ 13 ∧ x ≠ 10) →
      (s.writeBytes bs).wire.sent = s.wire.sent := by
  induction bs with
  | nil =>
    intro s k _ _ _ _
    rfl
  | cons b bs ih =>
    intro s k hm hat hk hbs
    have hb := hbs b (List.mem_cons_self b bs)
    obtain ⟨hsent, hat1, hm1⟩ := cell_drop s hm k hat hk b hb.1 hb.2
    have := ih (s.write b).2 k (by rw [hm1]; exact hm) hat1 (by rw [hm1]; exact hk)
      (fun x hx => hbs x (List.mem_cons_of_mem b hx))
    simp only [AMCLCD.writeBytes, this, hsent]

/-- C19: on each of the four built-in models, from the cursor (0, 0) with wrap
on, writing `N = cols * rows` bytes, none of them CR or LF, sends exactly `N`
pairs of frames, the i-th pair being
`[0x00, 0x80 | (getRowAddress(i / cols) + i mod cols)]` and `[0x40, b_i]`:
every cell is written once, in row-major order.  Any further bytes of that kind
written afterwards are dropped: nothing more is sent. -/
theorem C19_fill_display_row_major (m : AMCLCD_Model) (hm : m ∈ builtinModels) (s : AMCLCD)
    (hs : s.model = m) (hc : s.col = 0) (hr : s.row = 0) (hw : s.wrap = true)
    (bs : List Nat) (hlen : (bs.length : Int) = m.getCols * m.getRows)
    (hbs : ∀ x ∈ bs, x ≠ 13 ∧ x ≠ 10)
    (more : List Nat) (hmore : ∀ x ∈ more, x ≠ 13 ∧ x ≠ 10) :
    (s.writeBytes bs).wire.sent = s.wire.sent ++
      bs.enum.flatMap (fun p =>
        [{ addr := s.addr,
           bytes := [0x00, 0x80 ||| (m.getRowAddress ((p.1 : Int) / m.getCols)
              + ((p.1 : Int) % m.getCols).toNat)] },
         { addr := s.addr, bytes := [0x40, p.2] }]) ∧
    ((s.writeBytes bs).writeBytes more).wire.sent = (s.writeBytes bs).wire.sent := by
  subst hs
  have hat : s.atCell 0 := ⟨hw, Or.inl ⟨by simpa using hc, by simpa using hr⟩⟩
  obtain ⟨hsent, hat1, hm1, -⟩ :=
    writeBytes_cells bs s 0 hm hat (by rw [Nat.zero_add]; exact le_of_eq hlen) hbs
  refine ⟨hsent, ?_⟩
  exact writeBytes_dropped more (s.writeBytes bs) (0 + bs.length) (by rw [hm1]; exact hm) hat1
    (by rw [hm1, Nat.zero_add, hlen]) hmore

/-- Witness for C19: a fresh 8x2 driver, the 16 bytes `A` to `P`, then `QR`. -/
theorem C19_fill_display_row_major_witness :
    ((AMCLCD.fresh AMCLCD_Model_AMC0802 0x3C).writeBytes
        [65, 66, 67, 68, 69, 70, 71, 72, 73, 74, 75, 76, 77, 78, 79, 80]).wire.sent
      = (AMCLCD.fresh AMCLCD_Model_AMC0802 0x3C).wire.sent ++
        ([65, 66, 67, 68, 69, 70, 71, 72, 73, 74, 75, 76, 77, 78, 79, 80] : List Nat).enum.flatMap
          (fun p =>
            [{ addr := (AMCLCD.fresh AMCLCD_Model_AMC0802 0x3C).addr,
               bytes := [0x00, 0x80 ||| (AMCLCD_Model_AMC0802.getRowAddress
                  ((p.1 : Int) / AMCLCD_Model_AMC0802.getCols)
                  + ((p.1 : Int) % AMCLCD_Model_AMC0802.getCols).toNat)] },
             { addr := (AMCLCD.fresh AMCLCD_Model_AMC0802 0x3C).addr,
               bytes := [0x40, p.2] }]) ∧
    (((AMCLCD.fresh AMCLCD_Model_AMC0802 0x3C).writeBytes
        [65, 66, 67, 68, 69, 70, 71, 72, 73, 74, 75, 76, 77, 78, 79, 80]).writeBytes
        [81, 82]).wire.sent
      = ((AMCLCD.fresh AMCLCD_Model_AMC0802 0x3C).writeBytes
          [65, 66, 67, 68, 69, 70, 71, 72, 73, 74, 75, 76, 77, 78, 79, 80]).wire.sent :=
  C19_fill_display_row_major AMCLCD_Model_AMC0802 (by simp [builtinModels])
    (AMCLCD.fresh AMCLCD_Model_AMC0802 0x3C) rfl rfl rfl rfl
    [65, 66, 67, 68, 69, 70, 71, 72, 73, 74, 75, 76, 77, 78, 79, 80] (by decide) (by decide)
    [81, 82] (by decide)

end AMCLCD_RK
